import Mathlib

/-!
# Pin.h : fast operations on AVR I/O pins

A shallow embedding of `src/ardugraylink_with_pinlib/Pin.h`.

* A register is a byte cell of the data memory; a `Pin` holds the addresses of
  its three registers (`_PIN`, `_PORT`, `_DDR`), so two pins, or two fields of
  one pin, may name the same cell.
* `uint8_t` values are natural numbers; a store through a `volatile uint8_t*`
  and an argument passed to a `uint8_t` parameter keep the low 8 bits
  (`% 256`).
* `SREG` is the processor status register; bit 7 is the global interrupt
  enable flag that `cli()` clears.
* `rcTimer` is AVR inline assembly.  Its operand `count` is a 16 bit
  `unsigned int` held in a register pair; the template names it as
  `%[count]`, which is the register of the low byte, and `dec` is an 8 bit
  instruction.  The input register is driven by the hardware, so the values
  its loads return are given by a stream of readings.
* Each mutating member function is given twice: as a function on the machine
  state, and as the list of its statements (`Op.code`), run one by one by
  `exec`; `exec_code` shows that the two agree.
-/

namespace PinLib

/-! ## Constants of the platform header -/

/-- Modelled from the spec: the constant `LOW` (0x0) of `Arduino.h`, which `Pin.h` includes and
which is not part of the repository. -/
def LOW : Nat := 0

/-- Modelled from the spec: the constant `HIGH` (0x1) of `Arduino.h`, which `Pin.h` includes and
which is not part of the repository. -/
def HIGH : Nat := 1

/-- Modelled from the spec: the constant `INPUT` (0x0) of `Arduino.h`, which `Pin.h` includes and
which is not part of the repository. -/
def INPUT : Nat := 0

/-- Modelled from the spec: the constant `OUTPUT` (0x1) of `Arduino.h`, which `Pin.h` includes and
which is not part of the repository. -/
def OUTPUT : Nat := 1

/-- Modelled from the spec: the constant `INPUT_PULLUP` (0x2) of `Arduino.h`, which `Pin.h`
includes and which is not part of the repository. -/
def INPUT_PULLUP : Nat := 2

/-! ## Machine state -/

/-- The part of the microcontroller the class touches: the byte cells of the data memory
(the port registers live there) and the status register `SREG`. -/
structure Machine where
  mem : Nat → Nat
  sreg : Nat

/-- Store through a `volatile uint8_t*`: the cell at `a` receives the low 8 bits of `v`. -/
def Machine.store (s : Machine) (a v : Nat) : Machine :=
  { s with mem := fun x => if x = a then v % 256 else s.mem x }

/-- The instruction `cli`: clear the global interrupt enable flag, bit 7 of `SREG`. -/
def Machine.cli (s : Machine) : Machine :=
  { s with sreg := s.sreg &&& 0x7F }

/-- Assignment `SREG = v`. -/
def Machine.setSREG (s : Machine) (v : Nat) : Machine :=
  { s with sreg := v }

/-- Every memory cell holds a byte. -/
def Machine.Bytes (s : Machine) : Prop := ∀ a, s.mem a < 256

/-- The platform pin map of `Arduino.h` (not part of the repository), taken as a parameter. -/
structure Board where
  digitalPinToBitMask : Nat → Nat
  digitalPinToTimer : Nat → Nat
  digitalPinToPort : Nat → Nat
  portInputRegister : Nat → Nat
  portOutputRegister : Nat → Nat
  portModeRegister : Nat → Nat

/-! ## The class `Pin` -/

/-- The private variables of `class Pin` (lines 508-514); the three pointers are addresses. -/
structure Pin where
  _number : Nat
  _offset : Nat
  _ioffset : Nat
  _timer : Nat
  _PIN : Nat
  _PORT : Nat
  _DDR : Nat

/-- The operator `~` on a `uint8_t`, assigned back to a `uint8_t`. -/
def bitNot8 (x : Nat) : Nat := 255 - x % 256

/-- Arduino supported board constructor `Pin(uint8_t number)` (lines 61-69). -/
def Pin.ofNumber (b : Board) (number : Nat) : Pin :=
  let _number := number % 256
  let _offset := b.digitalPinToBitMask _number % 256
  { _number := _number
    _offset := _offset
    _ioffset := bitNot8 _offset
    _timer := b.digitalPinToTimer _number % 256
    _PIN := b.portInputRegister (b.digitalPinToPort _number)
    _PORT := b.portOutputRegister (b.digitalPinToPort _number)
    _DDR := b.portModeRegister (b.digitalPinToPort _number) }

/-- Default constructor `Pin()` (lines 46-54). -/
def Pin.default (b : Board) : Pin :=
  let _number := 0
  let _offset := b.digitalPinToBitMask _number % 256
  { _number := _number
    _offset := _offset
    _ioffset := bitNot8 _offset
    _timer := b.digitalPinToTimer _number % 256
    _PIN := b.portInputRegister (b.digitalPinToPort _number)
    _PORT := b.portOutputRegister (b.digitalPinToPort _number)
    _DDR := b.portModeRegister (b.digitalPinToPort _number) }

/-- Custom board constructor (lines 83-91). -/
def Pin.custom (number offset timer PIN PORT DDR : Nat) : Pin :=
  let _offset := offset % 256
  { _number := number % 256
    _offset := _offset
    _ioffset := bitNot8 _offset
    _timer := timer % 256
    _PIN := PIN
    _PORT := PORT
    _DDR := DDR }

/-- What every constructor establishes: `_offset` is a byte and `_ioffset = ~_offset`. -/
def Pin.Bound (p : Pin) : Prop := p._offset < 256 ∧ p._ioffset = bitNot8 p._offset

/-- Exactly one of the 8 bits of `x` is set. -/
def SingleBit (x : Nat) : Prop := ∃ i, i < 8 ∧ x = 2 ^ i

instance : DecidablePred SingleBit := fun x => by
  unfold SingleBit
  infer_instance

instance (p : Pin) : Decidable p.Bound := by
  unfold Pin.Bound
  infer_instance

/-! ### The macros (lines 16-31) -/

/-- `#define DDR_HIGH (*_DDR |= _offset)` -/
def Pin.DDR_HIGH (p : Pin) (s : Machine) : Machine :=
  s.store p._DDR (s.mem p._DDR ||| p._offset)

/-- `#define DDR_TOGGLE (*_DDR ^= _offset)` -/
def Pin.DDR_TOGGLE (p : Pin) (s : Machine) : Machine :=
  s.store p._DDR (s.mem p._DDR ^^^ p._offset)

/-- `#define DDR_LOW (*_DDR &= _ioffset)` -/
def Pin.DDR_LOW (p : Pin) (s : Machine) : Machine :=
  s.store p._DDR (s.mem p._DDR &&& p._ioffset)

/-- `#define PORT_HIGH (*_PORT |= _offset)` -/
def Pin.PORT_HIGH (p : Pin) (s : Machine) : Machine :=
  s.store p._PORT (s.mem p._PORT ||| p._offset)

/-- `#define PORT_TOGGLE (*_PORT ^= _offset)` -/
def Pin.PORT_TOGGLE (p : Pin) (s : Machine) : Machine :=
  s.store p._PORT (s.mem p._PORT ^^^ p._offset)

/-- `#define PORT_LOW (*_PORT &= _ioffset)` -/
def Pin.PORT_LOW (p : Pin) (s : Machine) : Machine :=
  s.store p._PORT (s.mem p._PORT &&& p._ioffset)

/-- `#define DDR_ON (*_DDR & _offset)` -/
def Pin.DDR_ON (p : Pin) (s : Machine) : Nat := s.mem p._DDR &&& p._offset

/-- `#define PORT_ON (*_PORT & _offset)` -/
def Pin.PORT_ON (p : Pin) (s : Machine) : Nat := s.mem p._PORT &&& p._offset

/-- `#define PIN_ON (*_PIN & _offset)` -/
def Pin.PIN_ON (p : Pin) (s : Machine) : Nat := s.mem p._PIN &&& p._offset

/-! ### Operators and getters -/

/-- `operator bool()` (lines 101-103). -/
def Pin.toBool (p : Pin) (s : Machine) : Bool := p.PIN_ON s != 0

/-- `Pin& operator =(uint8_t state)` (lines 110-121).  The `uint8_t` parameter holds the low 8
bits of the argument. -/
def Pin.assign (p : Pin) (state : Nat) (s : Machine) : Machine :=
  let oldSREG := s.sreg
  let s := s.cli
  let s := if state % 256 = LOW then p.PORT_LOW s else p.PORT_HIGH s
  s.setSREG oldSREG

/-- `getNumber()` (lines 131-133). -/
def Pin.getNumber (p : Pin) : Nat := p._number

/-- `getOffset()` (lines 140-142). -/
def Pin.getOffset (p : Pin) : Nat := p._offset

/-- `getInverseOffset()` (lines 149-151). -/
def Pin.getInverseOffset (p : Pin) : Nat := p._ioffset

/-- `getTimer()` (lines 158-160). -/
def Pin.getTimer (p : Pin) : Nat := p._timer

/-- `getPIN()` (lines 167-169). -/
def Pin.getPIN (p : Pin) : Nat := p._PIN

/-- `getPORT()` (lines 176-178). -/
def Pin.getPORT (p : Pin) : Nat := p._PORT

/-- `getDDR()` (lines 185-187). -/
def Pin.getDDR (p : Pin) : Nat := p._DDR

/-- `getMode()` (lines 194-200). -/
def Pin.getMode (p : Pin) (s : Machine) : Nat :=
  if p.DDR_ON s ≠ 0 then OUTPUT else INPUT

/-- `getState()` (lines 207-213). -/
def Pin.getState (p : Pin) (s : Machine) : Nat :=
  if p.PORT_ON s ≠ 0 then HIGH else LOW

/-- `getValue()` (lines 220-226). -/
def Pin.getValue (p : Pin) (s : Machine) : Nat :=
  if p.PIN_ON s ≠ 0 then HIGH else LOW

/-! ### Setters -/

/-- `set(uint8_t mode, uint8_t state)` (lines 248-262).  The `uint8_t` parameters hold the low 8
bits of the arguments. -/
def Pin.set (p : Pin) (mode state : Nat) (s : Machine) : Machine :=
  let oldSREG := s.sreg
  let s := s.cli
  let s := if mode % 256 = INPUT then p.DDR_LOW s else p.DDR_HIGH s
  let s := if state % 256 = LOW then p.PORT_LOW s else p.PORT_HIGH s
  s.setSREG oldSREG

/-- `setMode(uint8_t mode)` (lines 269-278).  The `uint8_t` parameter holds the low 8 bits of the
argument. -/
def Pin.setMode (p : Pin) (mode : Nat) (s : Machine) : Machine :=
  let oldSREG := s.sreg
  let s := s.cli
  let s := if mode % 256 = INPUT then p.DDR_LOW s else p.DDR_HIGH s
  s.setSREG oldSREG

/-- `setState(uint8_t state)` (lines 285-294).  The `uint8_t` parameter holds the low 8 bits of
the argument. -/
def Pin.setState (p : Pin) (state : Nat) (s : Machine) : Machine :=
  let oldSREG := s.sreg
  let s := s.cli
  let s := if state % 256 = LOW then p.PORT_LOW s else p.PORT_HIGH s
  s.setSREG oldSREG

/-- `setInput()` (lines 301-306). -/
def Pin.setInput (p : Pin) (s : Machine) : Machine :=
  let oldSREG := s.sreg
  let s := s.cli
  let s := p.DDR_LOW s
  s.setSREG oldSREG

/-- `setPullupOn()` (lines 311-316). -/
def Pin.setPullupOn (p : Pin) (s : Machine) : Machine :=
  let oldSREG := s.sreg
  let s := s.cli
  let s := p.PORT_HIGH s
  s.setSREG oldSREG

/-- `setPullupOff()` (lines 321-326). -/
def Pin.setPullupOff (p : Pin) (s : Machine) : Machine :=
  let oldSREG := s.sreg
  let s := s.cli
  let s := p.PORT_LOW s
  s.setSREG oldSREG

/-- `setInputPullupOn()` (lines 331-337). -/
def Pin.setInputPullupOn (p : Pin) (s : Machine) : Machine :=
  let oldSREG := s.sreg
  let s := s.cli
  let s := p.DDR_LOW s
  let s := p.PORT_HIGH s
  s.setSREG oldSREG

/-- `setInputPullupOff()` (lines 342-348). -/
def Pin.setInputPullupOff (p : Pin) (s : Machine) : Machine :=
  let oldSREG := s.sreg
  let s := s.cli
  let s := p.DDR_LOW s
  let s := p.PORT_LOW s
  s.setSREG oldSREG

/-- `setOutput()` (lines 355-360). -/
def Pin.setOutput (p : Pin) (s : Machine) : Machine :=
  let oldSREG := s.sreg
  let s := s.cli
  let s := p.DDR_HIGH s
  s.setSREG oldSREG

/-- `setHigh()` (lines 365-370). -/
def Pin.setHigh (p : Pin) (s : Machine) : Machine :=
  let oldSREG := s.sreg
  let s := s.cli
  let s := p.PORT_HIGH s
  s.setSREG oldSREG

/-- `setLow()` (lines 375-380). -/
def Pin.setLow (p : Pin) (s : Machine) : Machine :=
  let oldSREG := s.sreg
  let s := s.cli
  let s := p.PORT_LOW s
  s.setSREG oldSREG

/-- `setOutputHigh()` (lines 385-391). -/
def Pin.setOutputHigh (p : Pin) (s : Machine) : Machine :=
  let oldSREG := s.sreg
  let s := s.cli
  let s := p.DDR_HIGH s
  let s := p.PORT_HIGH s
  s.setSREG oldSREG

/-- `setOutputLow()` (lines 396-402). -/
def Pin.setOutputLow (p : Pin) (s : Machine) : Machine :=
  let oldSREG := s.sreg
  let s := s.cli
  let s := p.DDR_HIGH s
  let s := p.PORT_LOW s
  s.setSREG oldSREG

/-- `toggleMode()` (lines 421-426). -/
def Pin.toggleMode (p : Pin) (s : Machine) : Machine :=
  let oldSREG := s.sreg
  let s := s.cli
  let s := p.DDR_TOGGLE s
  s.setSREG oldSREG

/-- `toggleState()` (lines 431-436). -/
def Pin.toggleState (p : Pin) (s : Machine) : Machine :=
  let oldSREG := s.sreg
  let s := s.cli
  let s := p.PORT_TOGGLE s
  s.setSREG oldSREG

/-- The words of the spec: `setMode(mode)` followed by `setState(state)`. -/
def Pin.setModeThenSetState (p : Pin) (mode state : Nat) (s : Machine) : Machine :=
  p.setState state (p.setMode mode s)

/-! ### RC timer -/

/-- The polling loop of `rcTimer` (lines 473-478).  `lo` is the register `%[count]`, the low byte
of the counter; `i` counts the loads of the input register done so far, and `pin i` is the byte the
next load returns.  The result is the register at the label `end` and the number of loads done.
```
loop: ld  __tmp_reg__, %a[_PIN]
      and __tmp_reg__, %[_offset]
      brne end
      dec %[count]
      brne loop
end:
``` -/
def rcLoop (offset : Nat) (pin : Nat → Nat) (lo i : Nat) : Nat × Nat :=
  let tmp := pin i % 256 &&& offset
  if tmp ≠ 0 then (lo, i + 1)
  else
    let lo' := (lo + 255) % 256
    if lo' ≠ 0 then rcLoop offset pin lo' (i + 1) else (lo', i + 1)
termination_by (lo + 255) % 256
decreasing_by
  simp_wf
  omega

/-- The test the polling loop makes on a byte `v` loaded from the input register (`and` with
`_offset`, then `brne end`): the pin reads HIGH. -/
def High (offset v : Nat) : Prop := v % 256 &&& offset ≠ 0

instance (offset v : Nat) : Decidable (High offset v) := by
  unfold High
  infer_instance

/-- What a call of `rcTimer` leaves: the returned counter, the number of loads of the input
register it made, and the machine state. -/
structure RcResult where
  count : Nat
  loads : Nat
  machine : Machine

/-- `rcTimer(volatile unsigned int count)` (lines 448-504).  `count` is a 16 bit operand in a
register pair: `dec %[count]` works on its low byte, the high byte is returned as it came. -/
def Pin.rcTimer (p : Pin) (count : Nat) (pin : Nat → Nat) (s : Machine) : RcResult :=
  let count := count % 65536
  let lo := count % 256
  let hi := count / 256
  let status := s.sreg
  let s := s.cli
  let s := s.store p._DDR (s.mem p._DDR &&& p._ioffset)
  let r := rcLoop p._offset pin lo 0
  let s := s.store p._DDR (s.mem p._DDR ||| p._offset)
  let s := s.setSREG status
  { count := hi * 256 + r.1, loads := r.2, machine := s }

/-! ### The mutating operations as one type -/

/-- A call of one of the mutating member functions, with its arguments (for `rcTimer` also the
readings of the input register). -/
inductive Op where
  | assign (state : Nat)
  | set (mode state : Nat)
  | setMode (mode : Nat)
  | setState (state : Nat)
  | setInput
  | setOutput
  | setPullupOn
  | setPullupOff
  | setInputPullupOn
  | setInputPullupOff
  | setHigh
  | setLow
  | setOutputHigh
  | setOutputLow
  | toggleMode
  | toggleState
  | rcTimer (count : Nat) (pin : Nat → Nat)

/-- The machine state after the call `op` on the pin `p`. -/
def Op.run (p : Pin) : Op → Machine → Machine
  | .assign state, s => p.assign state s
  | .set mode state, s => p.set mode state s
  | .setMode mode, s => p.setMode mode s
  | .setState state, s => p.setState state s
  | .setInput, s => p.setInput s
  | .setOutput, s => p.setOutput s
  | .setPullupOn, s => p.setPullupOn s
  | .setPullupOff, s => p.setPullupOff s
  | .setInputPullupOn, s => p.setInputPullupOn s
  | .setInputPullupOff, s => p.setInputPullupOff s
  | .setHigh, s => p.setHigh s
  | .setLow, s => p.setLow s
  | .setOutputHigh, s => p.setOutputHigh s
  | .setOutputLow, s => p.setOutputLow s
  | .toggleMode, s => p.toggleMode s
  | .toggleState, s => p.toggleState s
  | .rcTimer count pin, s => (p.rcTimer count pin s).machine

/-- The footprint of an operation of `p` that takes the memory `m` to `m'`: cells other than the
direction and output registers are as before, and in every cell the 8 bits outside the mask
`_offset` are as before. -/
def Pin.Frame (p : Pin) (m m' : Nat → Nat) : Prop :=
  ∀ a, (a ≠ p._DDR → a ≠ p._PORT → m' a = m a) ∧
    ∀ j, j < 8 → p._offset.testBit j = false → (m' a).testBit j = (m a).testBit j

/-! ### Calls on the object -/

/-- A call of a mutating member function on the object `ps.1` in the machine state `ps.2`: the
object and the machine state after it.  The member variables are assigned in the constructors
only (lines 47-53, 62-68, 84-90); no member function assigns one, so the object comes back as it
was. -/
def Op.call (op : Op) (ps : Pin × Machine) : Pin × Machine :=
  (ps.1, op.run ps.1 ps.2)

/-- A sequence of calls on the object, one after the other. -/
def Op.calls : List Op → Pin × Machine → Pin × Machine
  | [], ps => ps
  | op :: ops, ps => Op.calls ops (op.call ps)

/-! ### The member functions step by step -/

/-- One statement of a member function body.  `loadPIN` is one pass of the polling loop of
`rcTimer`, whose only memory access is the load of the input register. -/
inductive Instr where
  | saveSREG
  | cli
  | DDR_LOW
  | DDR_HIGH
  | DDR_TOGGLE
  | PORT_LOW
  | PORT_HIGH
  | PORT_TOGGLE
  | loadPIN
  | restoreSREG
  deriving DecidableEq

/-- The machine together with the local variable `oldSREG` (`status` in `rcTimer`). -/
structure Thread where
  machine : Machine
  oldSREG : Nat

/-- What one statement does. -/
def Instr.step (p : Pin) : Instr → Thread → Thread
  | .saveSREG, t => { t with oldSREG := t.machine.sreg }
  | .cli, t => { t with machine := t.machine.cli }
  | .DDR_LOW, t => { t with machine := p.DDR_LOW t.machine }
  | .DDR_HIGH, t => { t with machine := p.DDR_HIGH t.machine }
  | .DDR_TOGGLE, t => { t with machine := p.DDR_TOGGLE t.machine }
  | .PORT_LOW, t => { t with machine := p.PORT_LOW t.machine }
  | .PORT_HIGH, t => { t with machine := p.PORT_HIGH t.machine }
  | .PORT_TOGGLE, t => { t with machine := p.PORT_TOGGLE t.machine }
  | .loadPIN, t => t
  | .restoreSREG, t => { t with machine := t.machine.setSREG t.oldSREG }

/-- The statements that store to the direction or the output register. -/
def Instr.writes : Instr → Bool
  | .DDR_LOW => true
  | .DDR_HIGH => true
  | .DDR_TOGGLE => true
  | .PORT_LOW => true
  | .PORT_HIGH => true
  | .PORT_TOGGLE => true
  | _ => false

/-- The statements of each member function, in the order they run (for `rcTimer`, one `loadPIN`
for each load of the input register the loop makes). -/
def Op.code (p : Pin) : Op → List Instr
  | .assign state =>
    [.saveSREG, .cli, if state % 256 = LOW then .PORT_LOW else .PORT_HIGH, .restoreSREG]
  | .set mode state =>
    [.saveSREG, .cli, if mode % 256 = INPUT then .DDR_LOW else .DDR_HIGH,
      if state % 256 = LOW then .PORT_LOW else .PORT_HIGH, .restoreSREG]
  | .setMode mode =>
    [.saveSREG, .cli, if mode % 256 = INPUT then .DDR_LOW else .DDR_HIGH, .restoreSREG]
  | .setState state =>
    [.saveSREG, .cli, if state % 256 = LOW then .PORT_LOW else .PORT_HIGH, .restoreSREG]
  | .setInput => [.saveSREG, .cli, .DDR_LOW, .restoreSREG]
  | .setOutput => [.saveSREG, .cli, .DDR_HIGH, .restoreSREG]
  | .setPullupOn => [.saveSREG, .cli, .PORT_HIGH, .restoreSREG]
  | .setPullupOff => [.saveSREG, .cli, .PORT_LOW, .restoreSREG]
  | .setInputPullupOn => [.saveSREG, .cli, .DDR_LOW, .PORT_HIGH, .restoreSREG]
  | .setInputPullupOff => [.saveSREG, .cli, .DDR_LOW, .PORT_LOW, .restoreSREG]
  | .setHigh => [.saveSREG, .cli, .PORT_HIGH, .restoreSREG]
  | .setLow => [.saveSREG, .cli, .PORT_LOW, .restoreSREG]
  | .setOutputHigh => [.saveSREG, .cli, .DDR_HIGH, .PORT_HIGH, .restoreSREG]
  | .setOutputLow => [.saveSREG, .cli, .DDR_HIGH, .PORT_LOW, .restoreSREG]
  | .toggleMode => [.saveSREG, .cli, .DDR_TOGGLE, .restoreSREG]
  | .toggleState => [.saveSREG, .cli, .PORT_TOGGLE, .restoreSREG]
  | .rcTimer count pin =>
    [.saveSREG, .cli, .DDR_LOW]
      ++ List.replicate (rcLoop p._offset pin (count % 65536 % 256) 0).2 .loadPIN
      ++ [.DDR_HIGH, .restoreSREG]

/-- Run a list of statements. -/
def exec (p : Pin) : List Instr → Thread → Thread
  | [], t => t
  | i :: is, t => exec p is (i.step p t)

/-- The global interrupt enable flag, bit 7 of `SREG`. -/
def interruptsEnabled (s : Machine) : Bool := s.sreg.testBit 7

/-- Running the statements from `t`, every store to the direction or output register is made in
a state where interrupts are disabled. -/
def WritesMasked (p : Pin) : List Instr → Thread → Prop
  | [], _ => True
  | i :: is, t =>
    (i.writes = true → interruptsEnabled t.machine = false) ∧ WritesMasked p is (i.step p t)

/-- The setters that write the direction register and the output register in one call. -/
def Op.compound : Op → Bool
  | .set _ _ => true
  | .setInputPullupOn => true
  | .setInputPullupOff => true
  | .setOutputHigh => true
  | .setOutputLow => true
  | _ => false

/-! ### The polling loop with a bound on its passes -/

/-- The polling loop of `rcTimer` (lines 473-478) run for at most `fuel` passes: `none` when the
label `end` is not reached within them. -/
def rcLoopFuel (offset : Nat) (pin : Nat → Nat) : Nat → Nat → Nat → Option (Nat × Nat)
  | 0, _, _ => none
  | fuel + 1, lo, i =>
    let tmp := pin i % 256 &&& offset
    if tmp ≠ 0 then some (lo, i + 1)
    else
      let lo' := (lo + 255) % 256
      if lo' ≠ 0 then rcLoopFuel offset pin fuel lo' (i + 1) else some (lo', i + 1)

/-- `rcTimer` (lines 448-504) with at most `fuel` passes of its loop: `none` when it has not
returned within them. -/
def Pin.rcTimerFuel (p : Pin) (fuel count : Nat) (pin : Nat → Nat) (s : Machine) :
    Option RcResult :=
  let count := count % 65536
  let lo := count % 256
  let hi := count / 256
  let status := s.sreg
  let s := s.cli
  let s := s.store p._DDR (s.mem p._DDR &&& p._ioffset)
  match rcLoopFuel p._offset pin fuel lo 0 with
  | none => none
  | some r =>
    let s := s.store p._DDR (s.mem p._DDR ||| p._offset)
    let s := s.setSREG status
    some { count := hi * 256 + r.1, loads := r.2, machine := s }

/-! ## Bit level facts -/

theorem testBit_bitNot8 (x j : Nat) (hx : x < 256) :
    (bitNot8 x).testBit j = (decide (j < 8) && !x.testBit j) := by
  have h : bitNot8 x = 2 ^ 8 - (x + 1) := by
    unfold bitNot8
    omega
  rw [h]
  exact Nat.testBit_two_pow_sub_succ (by omega) j

theorem testBit_high_of_byte {x j : Nat} (hx : x < 256) (hj : 8 ≤ j) : x.testBit j = false := by
  apply Nat.testBit_lt_two_pow
  calc x < 2 ^ 8 := by omega
    _ ≤ 2 ^ j := Nat.pow_le_pow_right (by decide) hj

theorem SingleBit.lt {x : Nat} (h : SingleBit x) : x < 256 := by
  obtain ⟨i, hi, rfl⟩ := h
  interval_cases i <;> decide

theorem SingleBit.ne_zero {x : Nat} (h : SingleBit x) : x ≠ 0 := by
  obtain ⟨i, _, rfl⟩ := h
  exact (Nat.two_pow_pos _).ne'

/-- `(x | m)` stored in a byte and masked with `m` is `m`. -/
theorem or_store_and (x m : Nat) (hm : m < 256) : (x ||| m) % 256 &&& m = m := by
  apply Nat.eq_of_testBit_eq
  intro j
  have h256 : (256 : Nat) = 2 ^ 8 := by norm_num
  rw [h256]
  simp only [Nat.testBit_and, Nat.testBit_mod_two_pow, Nat.testBit_or]
  by_cases hj : j < 8
  · cases x.testBit j <;> cases m.testBit j <;> simp [hj]
  · have := testBit_high_of_byte hm (by omega : 8 ≤ j)
    simp [hj, this]

/-- `(x & ~m)` stored in a byte and masked with `m` is 0. -/
theorem and_not_store_and (x m : Nat) (hm : m < 256) : (x &&& bitNot8 m) % 256 &&& m = 0 := by
  apply Nat.eq_of_testBit_eq
  intro j
  have h256 : (256 : Nat) = 2 ^ 8 := by norm_num
  rw [h256]
  simp only [Nat.testBit_and, Nat.testBit_mod_two_pow, testBit_bitNot8 m j hm, Nat.zero_testBit]
  cases x.testBit j <;> cases m.testBit j <;> simp

/-! ## The register contents after each macro -/

theorem store_mem (s : Machine) (a v x : Nat) :
    (s.store a v).mem x = if x = a then v % 256 else s.mem x := rfl

theorem store_sreg (s : Machine) (a v : Nat) : (s.store a v).sreg = s.sreg := rfl

theorem cli_mem (s : Machine) : s.cli.mem = s.mem := rfl

theorem setSREG_mem (s : Machine) (v : Nat) : (s.setSREG v).mem = s.mem := rfl

theorem setSREG_sreg (s : Machine) (v : Nat) : (s.setSREG v).sreg = v := rfl

/-- After `DDR_HIGH` the pin reads back as an output. -/
theorem DDR_ON_DDR_HIGH (p : Pin) (hp : p.Bound) (s : Machine) :
    p.DDR_ON (p.DDR_HIGH s) = p._offset := by
  simp only [Pin.DDR_ON, Pin.DDR_HIGH, store_mem, if_true]
  exact or_store_and _ _ hp.1

/-- After `DDR_LOW` the pin reads back as an input. -/
theorem DDR_ON_DDR_LOW (p : Pin) (hp : p.Bound) (s : Machine) :
    p.DDR_ON (p.DDR_LOW s) = 0 := by
  simp only [Pin.DDR_ON, Pin.DDR_LOW, store_mem, if_true, hp.2]
  exact and_not_store_and _ _ hp.1

/-- After `PORT_HIGH` the state reads back as high. -/
theorem PORT_ON_PORT_HIGH (p : Pin) (hp : p.Bound) (s : Machine) :
    p.PORT_ON (p.PORT_HIGH s) = p._offset := by
  simp only [Pin.PORT_ON, Pin.PORT_HIGH, store_mem, if_true]
  exact or_store_and _ _ hp.1

/-- After `PORT_LOW` the state reads back as low. -/
theorem PORT_ON_PORT_LOW (p : Pin) (hp : p.Bound) (s : Machine) :
    p.PORT_ON (p.PORT_LOW s) = 0 := by
  simp only [Pin.PORT_ON, Pin.PORT_LOW, store_mem, if_true, hp.2]
  exact and_not_store_and _ _ hp.1

/-- `DDR_ON` looks at the direction register only. -/
theorem DDR_ON_congr (p : Pin) {s t : Machine} (h : t.mem p._DDR = s.mem p._DDR) :
    p.DDR_ON t = p.DDR_ON s := by
  simp only [Pin.DDR_ON, h]

/-- `PORT_ON` looks at the output register only. -/
theorem PORT_ON_congr (p : Pin) {s t : Machine} (h : t.mem p._PORT = s.mem p._PORT) :
    p.PORT_ON t = p.PORT_ON s := by
  simp only [Pin.PORT_ON, h]

/-- The constructors establish `Pin.Bound`. -/
theorem custom_bound (number offset timer PIN PORT DDR : Nat) :
    (Pin.custom number offset timer PIN PORT DDR).Bound :=
  ⟨Nat.mod_lt _ (by decide), rfl⟩

theorem ofNumber_bound (b : Board) (number : Nat) : (Pin.ofNumber b number).Bound :=
  ⟨Nat.mod_lt _ (by decide), rfl⟩

theorem default_bound (b : Board) : (Pin.default b).Bound :=
  ⟨Nat.mod_lt _ (by decide), rfl⟩

/-! ## Mode and state read back what was set -/

/-- C1: for every pin whose offset has exactly one bit set, any register contents (the three
registers need not even be distinct) and every mode `M` in `{INPUT, OUTPUT}`, `getMode()`
returns `M` after `setMode(M)`. -/
theorem getMode_setMode (p : Pin) (hp : p.Bound) (h1 : SingleBit p._offset) (M : Nat)
    (hM : M = INPUT ∨ M = OUTPUT) (s : Machine) :
    p.getMode (p.setMode M s) = M := by
  rcases hM with rfl | rfl
  · have h : p.DDR_ON (p.setMode INPUT s) = 0 := by
      rw [← DDR_ON_DDR_LOW p hp s.cli]
      exact DDR_ON_congr p rfl
    simp [Pin.getMode, h]
  · have h : p.DDR_ON (p.setMode OUTPUT s) = p._offset := by
      rw [← DDR_ON_DDR_HIGH p hp s.cli]
      exact DDR_ON_congr p rfl
    simp [Pin.getMode, h, h1.ne_zero]

theorem getMode_setMode_witness :
    SingleBit (Pin.custom 13 0x20 0 0x23 0x25 0x24)._offset ∧
      (Pin.custom 13 0x20 0 0x23 0x25 0x24).getMode
        ((Pin.custom 13 0x20 0 0x23 0x25 0x24).setMode OUTPUT ⟨fun _ => 0, 0x80⟩) = OUTPUT :=
  ⟨by decide, getMode_setMode _ (custom_bound _ _ _ _ _ _) (by decide) OUTPUT (Or.inr rfl) _⟩

/-- C2: for every pin whose offset has exactly one bit set, any register contents and every state
`S` in `{HIGH, LOW}`, `getState()` returns `S` after `setState(S)`, and also after the assignment
`pin = S`. -/
theorem getState_setState (p : Pin) (hp : p.Bound) (h1 : SingleBit p._offset) (S : Nat)
    (hS : S = HIGH ∨ S = LOW) (s : Machine) :
    p.getState (p.setState S s) = S ∧ p.getState (p.assign S s) = S := by
  rcases hS with rfl | rfl
  · have h : p.PORT_ON (p.setState HIGH s) = p._offset := by
      rw [← PORT_ON_PORT_HIGH p hp s.cli]
      exact PORT_ON_congr p rfl
    have h' : p.PORT_ON (p.assign HIGH s) = p._offset := by
      rw [← PORT_ON_PORT_HIGH p hp s.cli]
      exact PORT_ON_congr p rfl
    simp [Pin.getState, h, h', h1.ne_zero]
  · have h : p.PORT_ON (p.setState LOW s) = 0 := by
      rw [← PORT_ON_PORT_LOW p hp s.cli]
      exact PORT_ON_congr p rfl
    have h' : p.PORT_ON (p.assign LOW s) = 0 := by
      rw [← PORT_ON_PORT_LOW p hp s.cli]
      exact PORT_ON_congr p rfl
    simp [Pin.getState, h, h']

theorem getState_setState_witness :
    SingleBit (Pin.custom 13 0x20 0 0x23 0x25 0x24)._offset ∧
      (Pin.custom 13 0x20 0 0x23 0x25 0x24).getState
          ((Pin.custom 13 0x20 0 0x23 0x25 0x24).setState HIGH ⟨fun _ => 0, 0x80⟩) = HIGH ∧
        (Pin.custom 13 0x20 0 0x23 0x25 0x24).getState
          ((Pin.custom 13 0x20 0 0x23 0x25 0x24).assign HIGH ⟨fun _ => 0, 0x80⟩) = HIGH :=
  ⟨by decide, getState_setState _ (custom_bound _ _ _ _ _ _) (by decide) HIGH (Or.inl rfl) _⟩

/-- A write of the output register leaves a distinct direction register as it was. -/
theorem DDR_ON_PORT_HIGH (p : Pin) (hd : p._DDR ≠ p._PORT) (s : Machine) :
    p.DDR_ON (p.PORT_HIGH s) = p.DDR_ON s := by
  apply DDR_ON_congr
  simp only [Pin.PORT_HIGH, store_mem, if_neg hd]

theorem DDR_ON_PORT_LOW (p : Pin) (hd : p._DDR ≠ p._PORT) (s : Machine) :
    p.DDR_ON (p.PORT_LOW s) = p.DDR_ON s := by
  apply DDR_ON_congr
  simp only [Pin.PORT_LOW, store_mem, if_neg hd]

/-- C3: for every pin whose offset has exactly one bit set and whose direction and output
registers are distinct, and any register contents: `setOutputHigh()` leaves mode `OUTPUT` and
state `HIGH`, `setOutputLow()` leaves `OUTPUT` and `LOW`, `setInputPullupOn()` leaves `INPUT` and
`HIGH`, `setInputPullupOff()` leaves `INPUT` and `LOW`. -/
theorem compound_setters_read_back (p : Pin) (hp : p.Bound) (h1 : SingleBit p._offset)
    (hd : p._DDR ≠ p._PORT) (s : Machine) :
    (p.getMode (p.setOutputHigh s) = OUTPUT ∧ p.getState (p.setOutputHigh s) = HIGH) ∧
      (p.getMode (p.setOutputLow s) = OUTPUT ∧ p.getState (p.setOutputLow s) = LOW) ∧
      (p.getMode (p.setInputPullupOn s) = INPUT ∧ p.getState (p.setInputPullupOn s) = HIGH) ∧
      (p.getMode (p.setInputPullupOff s) = INPUT ∧ p.getState (p.setInputPullupOff s) = LOW) := by
  have dHH : p.DDR_ON (p.setOutputHigh s) = p._offset := by
    rw [← DDR_ON_DDR_HIGH p hp s.cli, ← DDR_ON_PORT_HIGH p hd (p.DDR_HIGH s.cli)]
    exact DDR_ON_congr p rfl
  have pHH : p.PORT_ON (p.setOutputHigh s) = p._offset := by
    rw [← PORT_ON_PORT_HIGH p hp (p.DDR_HIGH s.cli)]
    exact PORT_ON_congr p rfl
  have dHL : p.DDR_ON (p.setOutputLow s) = p._offset := by
    rw [← DDR_ON_DDR_HIGH p hp s.cli, ← DDR_ON_PORT_LOW p hd (p.DDR_HIGH s.cli)]
    exact DDR_ON_congr p rfl
  have pHL : p.PORT_ON (p.setOutputLow s) = 0 := by
    rw [← PORT_ON_PORT_LOW p hp (p.DDR_HIGH s.cli)]
    exact PORT_ON_congr p rfl
  have dLH : p.DDR_ON (p.setInputPullupOn s) = 0 := by
    rw [← DDR_ON_DDR_LOW p hp s.cli, ← DDR_ON_PORT_HIGH p hd (p.DDR_LOW s.cli)]
    exact DDR_ON_congr p rfl
  have pLH : p.PORT_ON (p.setInputPullupOn s) = p._offset := by
    rw [← PORT_ON_PORT_HIGH p hp (p.DDR_LOW s.cli)]
    exact PORT_ON_congr p rfl
  have dLL : p.DDR_ON (p.setInputPullupOff s) = 0 := by
    rw [← DDR_ON_DDR_LOW p hp s.cli, ← DDR_ON_PORT_LOW p hd (p.DDR_LOW s.cli)]
    exact DDR_ON_congr p rfl
  have pLL : p.PORT_ON (p.setInputPullupOff s) = 0 := by
    rw [← PORT_ON_PORT_LOW p hp (p.DDR_LOW s.cli)]
    exact PORT_ON_congr p rfl
  simp [Pin.getMode, Pin.getState, dHH, pHH, dHL, pHL, dLH, pLH, dLL, pLL, h1.ne_zero]

theorem compound_setters_read_back_witness :
    (SingleBit (Pin.custom 13 0x20 0 0x23 0x25 0x24)._offset ∧
        (Pin.custom 13 0x20 0 0x23 0x25 0x24)._DDR ≠ (Pin.custom 13 0x20 0 0x23 0x25 0x24)._PORT) ∧
      (Pin.custom 13 0x20 0 0x23 0x25 0x24).getMode
          ((Pin.custom 13 0x20 0 0x23 0x25 0x24).setOutputLow ⟨fun _ => 0xFF, 0x80⟩) = OUTPUT ∧
        (Pin.custom 13 0x20 0 0x23 0x25 0x24).getState
          ((Pin.custom 13 0x20 0 0x23 0x25 0x24).setOutputLow ⟨fun _ => 0xFF, 0x80⟩) = LOW :=
  ⟨⟨by decide, by decide⟩,
    (compound_setters_read_back _ (custom_bound _ _ _ _ _ _) (by decide) (by decide) _).2.1⟩

/-! ## `set` against `setMode` followed by `setState` -/

/-- C4: for every pin, every mode and state argument and any register contents, `set(mode, state)`
ends in the same machine state (every memory cell, so the input, output and direction registers,
and `SREG`) as `setMode(mode)` followed by `setState(state)`. -/
theorem set_eq_setMode_then_setState (p : Pin) (mode state : Nat) (s : Machine) :
    p.set mode state s = p.setModeThenSetState mode state s := by
  unfold Pin.set Pin.setModeThenSetState Pin.setState Pin.setMode
  by_cases hm : mode % 256 = INPUT <;> by_cases hs : state % 256 = LOW <;>
    simp only [hm, hs, if_true, if_false] <;> rfl

/-! ## `setOutputHigh` on a manually bound pin -/

theorem or_store_of_byte {x m : Nat} (hx : x < 256) (hm : m < 256) : (x ||| m) % 256 = x ||| m :=
  Nat.mod_eq_of_lt (Nat.or_lt_two_pow (n := 8) hx hm)

theorem or_or_self (x m : Nat) : (x ||| m) ||| m = x ||| m := by
  rw [Nat.or_assoc, Nat.or_self]

theorem two_pow_lt_256 {i : Nat} (hi : i < 8) : 2 ^ i < 256 := by
  interval_cases i <;> decide

/-- C5: for a pin bound by the custom board constructor with the single-bit offset `2 ^ i` over
register bytes with any contents, the input register being a byte of its own, `setOutputHigh()`
leaves `direction | offset` in the direction register and `output | offset` in the output
register: bit `i` of both is set, every other bit of both is as before, and the input register
byte is as before. -/
theorem setOutputHigh_custom (number timer PIN PORT DDR i : Nat) (hi : i < 8)
    (hPD : PIN ≠ DDR) (hPP : PIN ≠ PORT) (s : Machine)
    (hD : s.mem DDR < 256) (hP : s.mem PORT < 256) :
    ((Pin.custom number (2 ^ i) timer PIN PORT DDR).setOutputHigh s).mem DDR
        = s.mem DDR ||| 2 ^ i ∧
      ((Pin.custom number (2 ^ i) timer PIN PORT DDR).setOutputHigh s).mem PORT
        = s.mem PORT ||| 2 ^ i ∧
      (((Pin.custom number (2 ^ i) timer PIN PORT DDR).setOutputHigh s).mem DDR).testBit i = true ∧
      (((Pin.custom number (2 ^ i) timer PIN PORT DDR).setOutputHigh s).mem PORT).testBit i = true ∧
      (∀ j, j ≠ i →
        (((Pin.custom number (2 ^ i) timer PIN PORT DDR).setOutputHigh s).mem DDR).testBit j
          = (s.mem DDR).testBit j) ∧
      (∀ j, j ≠ i →
        (((Pin.custom number (2 ^ i) timer PIN PORT DDR).setOutputHigh s).mem PORT).testBit j
          = (s.mem PORT).testBit j) ∧
      ((Pin.custom number (2 ^ i) timer PIN PORT DDR).setOutputHigh s).mem PIN = s.mem PIN := by
  have hm : 2 ^ i < 256 := two_pow_lt_256 hi
  have hoff : 2 ^ i % 256 = 2 ^ i := Nat.mod_eq_of_lt hm
  have eD : ((Pin.custom number (2 ^ i) timer PIN PORT DDR).setOutputHigh s).mem DDR
      = s.mem DDR ||| 2 ^ i := by
    simp only [Pin.setOutputHigh, Pin.DDR_HIGH, Pin.PORT_HIGH, Pin.custom, setSREG_mem, store_mem,
      cli_mem, if_true, hoff]
    by_cases h : DDR = PORT
    · subst h
      simp only [if_true]
      rw [or_store_of_byte hD hm, or_or_self, or_store_of_byte hD hm]
    · simp only [if_neg h]
      exact or_store_of_byte hD hm
  have eP : ((Pin.custom number (2 ^ i) timer PIN PORT DDR).setOutputHigh s).mem PORT
      = s.mem PORT ||| 2 ^ i := by
    simp only [Pin.setOutputHigh, Pin.DDR_HIGH, Pin.PORT_HIGH, Pin.custom, setSREG_mem, store_mem,
      cli_mem, if_true, hoff]
    by_cases h : PORT = DDR
    · subst h
      simp only [if_true]
      rw [or_store_of_byte hP hm, or_or_self, or_store_of_byte hP hm]
    · simp only [if_neg h]
      exact or_store_of_byte hP hm
  have eI : ((Pin.custom number (2 ^ i) timer PIN PORT DDR).setOutputHigh s).mem PIN
      = s.mem PIN := by
    simp only [Pin.setOutputHigh, Pin.DDR_HIGH, Pin.PORT_HIGH, Pin.custom, setSREG_mem, store_mem,
      cli_mem, if_neg hPD, if_neg hPP]
  refine ⟨eD, eP, ?_, ?_, ?_, ?_, eI⟩
  · rw [eD, Nat.testBit_or, Nat.testBit_two_pow_self, Bool.or_true]
  · rw [eP, Nat.testBit_or, Nat.testBit_two_pow_self, Bool.or_true]
  · intro j hj
    rw [eD, Nat.testBit_or, Nat.testBit_two_pow_of_ne (Ne.symm hj), Bool.or_false]
  · intro j hj
    rw [eP, Nat.testBit_or, Nat.testBit_two_pow_of_ne (Ne.symm hj), Bool.or_false]

theorem setOutputHigh_custom_witness :
    ((Pin.custom 13 0b00000100 0 0 1 2).setOutputHigh ⟨fun _ => 0xA1, 0x80⟩).mem 2 = 0xA5 ∧
      ((Pin.custom 13 0b00000100 0 0 1 2).setOutputHigh ⟨fun _ => 0xA1, 0x80⟩).mem 1 = 0xA5 ∧
      ((Pin.custom 13 0b00000100 0 0 1 2).setOutputHigh ⟨fun _ => 0xA1, 0x80⟩).mem 0 = 0xA1 :=
  have h := setOutputHigh_custom 13 0 0 1 2 2 (by decide) (by decide) (by decide)
    ⟨fun _ => 0xA1, 0x80⟩ (by decide) (by decide)
  ⟨h.1, h.2.1, h.2.2.2.2.2.2⟩

/-! ## Mask isolation -/

theorem testBit_store (x j : Nat) (hj : j < 8) : (x % 256).testBit j = x.testBit j := by
  have h256 : (256 : Nat) = 2 ^ 8 := by norm_num
  rw [h256, Nat.testBit_mod_two_pow]
  simp [hj]

theorem testBit_or_store (x m j : Nat) (hj : j < 8) (hm : m.testBit j = false) :
    ((x ||| m) % 256).testBit j = x.testBit j := by
  rw [testBit_store _ _ hj, Nat.testBit_or, hm, Bool.or_false]

theorem testBit_xor_store (x m j : Nat) (hj : j < 8) (hm : m.testBit j = false) :
    ((x ^^^ m) % 256).testBit j = x.testBit j := by
  rw [testBit_store _ _ hj, Nat.testBit_xor, hm]
  cases x.testBit j <;> rfl

theorem testBit_and_not_store (x m j : Nat) (hx : m < 256) (hj : j < 8)
    (hm : m.testBit j = false) : ((x &&& bitNot8 m) % 256).testBit j = x.testBit j := by
  rw [testBit_store _ _ hj, Nat.testBit_and, testBit_bitNot8 m j hx, hm]
  simp [hj]

theorem Pin.Frame.refl (p : Pin) (m : Nat → Nat) : p.Frame m m :=
  fun _ => ⟨fun _ _ => rfl, fun _ _ _ => rfl⟩

theorem Pin.Frame.trans {p : Pin} {m₁ m₂ m₃ : Nat → Nat} (h₁ : p.Frame m₁ m₂) (h₂ : p.Frame m₂ m₃) :
    p.Frame m₁ m₃ := fun a =>
  ⟨fun hd hp => ((h₂ a).1 hd hp).trans ((h₁ a).1 hd hp),
    fun j hj hm => ((h₂ a).2 j hj hm).trans ((h₁ a).2 j hj hm)⟩

/-- A store to the direction or output register that keeps the bits outside the mask. -/
theorem Pin.Frame.of_store (p : Pin) (s : Machine) (a v : Nat) (ha : a = p._DDR ∨ a = p._PORT)
    (hv : ∀ j, j < 8 → p._offset.testBit j = false → (v % 256).testBit j = (s.mem a).testBit j) :
    p.Frame s.mem (s.store a v).mem := by
  intro x
  rw [store_mem]
  constructor
  · intro hd hp
    have hx : x ≠ a := by
      rcases ha with rfl | rfl
      · exact hd
      · exact hp
    rw [if_neg hx]
  · intro j hj hm
    by_cases hx : x = a
    · rw [if_pos hx, hx]
      exact hv j hj hm
    · rw [if_neg hx]

theorem Pin.Frame.of_DDR_HIGH (p : Pin) (s : Machine) : p.Frame s.mem (p.DDR_HIGH s).mem :=
  Pin.Frame.of_store p s _ _ (Or.inl rfl) fun j hj hm => testBit_or_store _ _ j hj hm

theorem Pin.Frame.of_DDR_TOGGLE (p : Pin) (s : Machine) : p.Frame s.mem (p.DDR_TOGGLE s).mem :=
  Pin.Frame.of_store p s _ _ (Or.inl rfl) fun j hj hm => testBit_xor_store _ _ j hj hm

theorem Pin.Frame.of_DDR_LOW (p : Pin) (hp : p.Bound) (s : Machine) :
    p.Frame s.mem (p.DDR_LOW s).mem :=
  Pin.Frame.of_store p s _ _ (Or.inl rfl) fun j hj hm => by
    rw [hp.2]
    exact testBit_and_not_store _ _ j hp.1 hj hm

theorem Pin.Frame.of_PORT_HIGH (p : Pin) (s : Machine) : p.Frame s.mem (p.PORT_HIGH s).mem :=
  Pin.Frame.of_store p s _ _ (Or.inr rfl) fun j hj hm => testBit_or_store _ _ j hj hm

theorem Pin.Frame.of_PORT_TOGGLE (p : Pin) (s : Machine) : p.Frame s.mem (p.PORT_TOGGLE s).mem :=
  Pin.Frame.of_store p s _ _ (Or.inr rfl) fun j hj hm => testBit_xor_store _ _ j hj hm

theorem Pin.Frame.of_PORT_LOW (p : Pin) (hp : p.Bound) (s : Machine) :
    p.Frame s.mem (p.PORT_LOW s).mem :=
  Pin.Frame.of_store p s _ _ (Or.inr rfl) fun j hj hm => by
    rw [hp.2]
    exact testBit_and_not_store _ _ j hp.1 hj hm

/-- The memory `rcTimer` leaves is the one `DDR_LOW` then `DDR_HIGH` leave: the loop only loads. -/
theorem rcTimer_mem (p : Pin) (count : Nat) (pin : Nat → Nat) (s : Machine) :
    (p.rcTimer count pin s).machine.mem = (p.DDR_HIGH (p.DDR_LOW s)).mem := rfl

/-- Every mutating operation keeps to the footprint `Pin.Frame`. -/
theorem Pin.Frame.of_run (p : Pin) (hp : p.Bound) (op : Op) (s : Machine) :
    p.Frame s.mem (op.run p s).mem := by
  have dl := fun t => Pin.Frame.of_DDR_LOW p hp t
  have dh := fun t => Pin.Frame.of_DDR_HIGH p t
  have pl := fun t => Pin.Frame.of_PORT_LOW p hp t
  have ph := fun t => Pin.Frame.of_PORT_HIGH p t
  cases op with
  | assign state =>
    by_cases h : state % 256 = LOW
    · simpa [Op.run, Pin.assign, h, setSREG_mem] using pl s.cli
    · simpa [Op.run, Pin.assign, h, setSREG_mem] using ph s.cli
  | set mode state =>
    by_cases hm : mode % 256 = INPUT <;> by_cases h : state % 256 = LOW
    · simpa [Op.run, Pin.set, hm, h, setSREG_mem] using (dl s.cli).trans (pl _)
    · simpa [Op.run, Pin.set, hm, h, setSREG_mem] using (dl s.cli).trans (ph _)
    · simpa [Op.run, Pin.set, hm, h, setSREG_mem] using (dh s.cli).trans (pl _)
    · simpa [Op.run, Pin.set, hm, h, setSREG_mem] using (dh s.cli).trans (ph _)
  | setMode mode =>
    by_cases hm : mode % 256 = INPUT
    · simpa [Op.run, Pin.setMode, hm, setSREG_mem] using dl s.cli
    · simpa [Op.run, Pin.setMode, hm, setSREG_mem] using dh s.cli
  | setState state =>
    by_cases h : state % 256 = LOW
    · simpa [Op.run, Pin.setState, h, setSREG_mem] using pl s.cli
    · simpa [Op.run, Pin.setState, h, setSREG_mem] using ph s.cli
  | setInput => exact dl s.cli
  | setOutput => exact dh s.cli
  | setPullupOn => exact ph s.cli
  | setPullupOff => exact pl s.cli
  | setInputPullupOn => exact (dl s.cli).trans (ph _)
  | setInputPullupOff => exact (dl s.cli).trans (pl _)
  | setHigh => exact ph s.cli
  | setLow => exact pl s.cli
  | setOutputHigh => exact (dh s.cli).trans (ph _)
  | setOutputLow => exact (dh s.cli).trans (pl _)
  | toggleMode => exact Pin.Frame.of_DDR_TOGGLE p s.cli
  | toggleState => exact Pin.Frame.of_PORT_TOGGLE p s.cli
  | rcTimer count pin =>
    show p.Frame s.mem (p.rcTimer count pin s).machine.mem
    rw [rcTimer_mem]
    exact (dl s).trans (dh _)

/-- C6: mask isolation.  For every constructed pin, every mutating operation (the assignment, `set`,
`setMode`, `setState`, `setInput`, `setOutput`, `setPullupOn/Off`, `setInputPullupOn/Off`,
`setHigh`, `setLow`, `setOutputHigh/Low`, `toggleMode`, `toggleState`, `rcTimer`) and any register
contents: each of the 8 bits of the direction register and of the output register that is not in
the mask `_offset` is as before the operation, and no cell other than these two registers is
written, so an input register that is a register of its own keeps its contents. -/
theorem mask_isolation (p : Pin) (hp : p.Bound) (op : Op) (s : Machine) :
    (∀ j, j < 8 → p._offset.testBit j = false →
        ((op.run p s).mem p._DDR).testBit j = (s.mem p._DDR).testBit j) ∧
      (∀ j, j < 8 → p._offset.testBit j = false →
        ((op.run p s).mem p._PORT).testBit j = (s.mem p._PORT).testBit j) ∧
      (∀ a, a ≠ p._DDR → a ≠ p._PORT → (op.run p s).mem a = s.mem a) ∧
      (p._PIN ≠ p._DDR → p._PIN ≠ p._PORT → (op.run p s).mem p._PIN = s.mem p._PIN) :=
  have h := Pin.Frame.of_run p hp op s
  ⟨(h _).2, (h _).2, fun a => (h a).1, (h _).1⟩

theorem mask_isolation_witness :
    (Pin.custom 13 0x20 0 0x23 0x25 0x24).Bound ∧
      (∀ j, j < 8 → (Pin.custom 13 0x20 0 0x23 0x25 0x24)._offset.testBit j = false →
        (((Op.toggleMode).run (Pin.custom 13 0x20 0 0x23 0x25 0x24) ⟨fun _ => 0xA1, 0x80⟩).mem
            (Pin.custom 13 0x20 0 0x23 0x25 0x24)._DDR).testBit j
          = ((⟨fun _ => 0xA1, 0x80⟩ : Machine).mem
            (Pin.custom 13 0x20 0 0x23 0x25 0x24)._DDR).testBit j) :=
  ⟨custom_bound _ _ _ _ _ _,
    (mask_isolation (Pin.custom 13 0x20 0 0x23 0x25 0x24) (custom_bound _ _ _ _ _ _)
      Op.toggleMode ⟨fun _ => 0xA1, 0x80⟩).1⟩

/-! ## The polling loop of `rcTimer` -/

theorem rcLoop_high {offset : Nat} {pin : Nat → Nat} {i : Nat} (lo : Nat)
    (h : High offset (pin i)) : rcLoop offset pin lo i = (lo, i + 1) := by
  have h' : pin i % 256 &&& offset ≠ 0 := h
  rw [rcLoop]
  simp only []
  rw [if_pos h']

theorem rcLoop_low_loop {offset : Nat} {pin : Nat → Nat} {lo i : Nat}
    (h : ¬ High offset (pin i)) (hlo : (lo + 255) % 256 ≠ 0) :
    rcLoop offset pin lo i = rcLoop offset pin ((lo + 255) % 256) (i + 1) := by
  have h' : ¬ pin i % 256 &&& offset ≠ 0 := h
  rw [rcLoop]
  simp only []
  rw [if_neg h', if_pos hlo]

theorem rcLoop_low_exit {offset : Nat} {pin : Nat → Nat} {lo i : Nat}
    (h : ¬ High offset (pin i)) (hlo : (lo + 255) % 256 = 0) :
    rcLoop offset pin lo i = (0, i + 1) := by
  have h' : ¬ pin i % 256 &&& offset ≠ 0 := h
  rw [rcLoop]
  simp only []
  rw [if_neg h', if_neg (not_not.mpr hlo), hlo]

theorem rcLoop_first_high (offset : Nat) (pin : Nat → Nat) :
    ∀ (k lo i : Nat), lo < 256 → k < (lo + 255) % 256 + 1 →
      (∀ j, j < k → ¬ High offset (pin (i + j))) → High offset (pin (i + k)) →
      rcLoop offset pin lo i = ((lo + 256 - k) % 256, i + k + 1) := by
  intro k
  induction k with
  | zero =>
    intro lo i hlo _ _ hh
    rw [Nat.add_zero] at hh
    rw [rcLoop_high lo hh]
    simp only [Nat.add_zero, Nat.sub_zero, Prod.mk.injEq, and_true]
    omega
  | succ k ih =>
    intro lo i hlo hk hl hh
    have h0 : ¬ High offset (pin i) := hl 0 (Nat.succ_pos k)
    have hne : (lo + 255) % 256 ≠ 0 := by omega
    rw [rcLoop_low_loop h0 hne]
    have hk' : k < ((lo + 255) % 256 + 255) % 256 + 1 := by
      omega
    have hl' : ∀ j, j < k → ¬ High offset (pin (i + 1 + j)) := by
      intro j hj
      have := hl (j + 1) (by omega)
      rwa [show i + 1 + j = i + (j + 1) by omega]
    have hh' : High offset (pin (i + 1 + k)) := by
      rwa [show i + 1 + k = i + (k + 1) by omega]
    rw [ih _ (i + 1) (Nat.mod_lt _ (by decide)) hk' hl' hh']
    simp only [Prod.mk.injEq]
    omega

theorem rcLoop_never_high (offset : Nat) (pin : Nat → Nat) :
    ∀ (n lo i : Nat), lo < 256 → (lo + 255) % 256 + 1 = n + 1 →
      (∀ j, j < n + 1 → ¬ High offset (pin (i + j))) →
      rcLoop offset pin lo i = (0, i + (n + 1)) := by
  intro n
  induction n with
  | zero =>
    intro lo i hlo hd hl
    exact rcLoop_low_exit (hl 0 (by omega)) (by omega)
  | succ n ih =>
    intro lo i hlo hd hl
    have h0 : ¬ High offset (pin i) := hl 0 (by omega)
    have hne : (lo + 255) % 256 ≠ 0 := by omega
    rw [rcLoop_low_loop h0 hne]
    have hd' : ((lo + 255) % 256 + 255) % 256 + 1 = n + 1 := by
      omega
    have hl' : ∀ j, j < n + 1 → ¬ High offset (pin (i + 1 + j)) := by
      intro j hj
      have := hl (j + 1) (by omega)
      rwa [show i + 1 + j = i + (j + 1) by omega]
    rw [ih _ (i + 1) (Nat.mod_lt _ (by decide)) hd' hl']
    simp only [Prod.mk.injEq, true_and]
    omega

/-- The returned counter: the high byte as it came, the low byte as the loop left it. -/
theorem rcTimer_count (p : Pin) (count : Nat) (pin : Nat → Nat) (s : Machine) :
    (p.rcTimer count pin s).count
      = count % 65536 / 256 * 256 + (rcLoop p._offset pin (count % 65536 % 256) 0).1 := rfl

theorem rcTimer_loads (p : Pin) (count : Nat) (pin : Nat → Nat) (s : Machine) :
    (p.rcTimer count pin s).loads = (rcLoop p._offset pin (count % 65536 % 256) 0).2 := rfl

/-- The pin reads HIGH at load `k + 1`, before the low byte of the counter runs out. -/
theorem rcTimer_first_high (p : Pin) (count k : Nat) (pin : Nat → Nat) (s : Machine)
    (hk : k < (count % 65536 % 256 + 255) % 256 + 1)
    (hl : ∀ j, j < k → ¬ High p._offset (pin j)) (hh : High p._offset (pin k)) :
    (p.rcTimer count pin s).count
        = count % 65536 / 256 * 256 + (count % 65536 % 256 + 256 - k) % 256 ∧
      (p.rcTimer count pin s).loads = k + 1 := by
  have h := rcLoop_first_high p._offset pin k (count % 65536 % 256) 0
    (Nat.mod_lt _ (by decide)) hk (by simpa using hl) (by simpa using hh)
  rw [rcTimer_count, rcTimer_loads, h]
  simp

/-- A counter that fits the low byte: `count - k` is returned when load `k + 1` is the first
that reads HIGH. -/
theorem rcTimer_first_high_of_lt_256 (p : Pin) (count k : Nat) (pin : Nat → Nat) (s : Machine)
    (hc : count < 256) (hk : k < count)
    (hl : ∀ j, j < k → ¬ High p._offset (pin j)) (hh : High p._offset (pin k)) :
    (p.rcTimer count pin s).count = count - k ∧ (p.rcTimer count pin s).loads = k + 1 := by
  have h := rcTimer_first_high p count k pin s (by omega) hl hh
  refine ⟨?_, h.2⟩
  rw [h.1]
  omega

/-- The pin never reads HIGH: the loop ends when the low byte reaches 0, and the high byte of the
counter is returned as it came. -/
theorem rcTimer_never_high (p : Pin) (count : Nat) (pin : Nat → Nat) (s : Machine)
    (hl : ∀ j, ¬ High p._offset (pin j)) :
    (p.rcTimer count pin s).count = count % 65536 / 256 * 256 ∧
      (p.rcTimer count pin s).loads = (count % 65536 % 256 + 255) % 256 + 1 := by
  have h := rcLoop_never_high p._offset pin ((count % 65536 % 256 + 255) % 256)
    (count % 65536 % 256) 0 (Nat.mod_lt _ (by decide)) rfl (fun j _ => hl _)
  rw [rcTimer_count, rcTimer_loads, h]
  simp

/-- The loop always loads the input register at least once: its test comes before the first
`dec`, whatever the counter is. -/
theorem rcLoop_loads_pos (offset : Nat) (pin : Nat → Nat) :
    ∀ (n lo i : Nat), (lo + 255) % 256 = n → i + 1 ≤ (rcLoop offset pin lo i).2 := by
  intro n
  induction n using Nat.strong_induction_on with
  | _ n ih =>
    intro lo i hn
    by_cases hh : High offset (pin i)
    · rw [rcLoop_high lo hh]
    · by_cases hlo : (lo + 255) % 256 = 0
      · rw [rcLoop_low_exit hh hlo]
      · rw [rcLoop_low_loop hh hlo]
        have := ih (((lo + 255) % 256 + 255) % 256) (by omega) ((lo + 255) % 256) (i + 1) rfl
        omega

/-! ## What `rcTimer` returns -/

/-- C7, evaluated where it fails: `rcTimer(256)` on a pin whose first reading is not HIGH and whose
second reading is HIGH (`k = 1 < 256`).  `dec` takes the low byte from 0x00 to 0xFF and leaves the
high byte 0x01, so 511 is returned, not `256 - 1`. -/
theorem rcTimer_256_high_at_second_load :
    ¬ High (Pin.custom 13 0x20 0 0x23 0x25 0x24)._offset ((fun i => if i = 0 then 0 else 0x20) 0) ∧
      High (Pin.custom 13 0x20 0 0x23 0x25 0x24)._offset ((fun i => if i = 0 then 0 else 0x20) 1) ∧
      ((Pin.custom 13 0x20 0 0x23 0x25 0x24).rcTimer 256 (fun i => if i = 0 then 0 else 0x20)
        ⟨fun _ => 0, 0x80⟩).count = 511 ∧
      ((Pin.custom 13 0x20 0 0x23 0x25 0x24).rcTimer 256 (fun i => if i = 0 then 0 else 0x20)
        ⟨fun _ => 0, 0x80⟩).count ≠ 256 - 1 := by
  have h := (rcTimer_first_high (Pin.custom 13 0x20 0 0x23 0x25 0x24) 256 1
    (fun i => if i = 0 then 0 else 0x20) ⟨fun _ => 0, 0x80⟩ (by decide) (by decide) (by decide)).1
  refine ⟨by decide, by decide, ?_, ?_⟩
  · rw [h]
  · rw [h]
    decide

/-- C8, evaluated where it fails: `rcTimer(1000)` on a pin that never reads HIGH.  The loop ends
after 232 loads, when the low byte 0xE8 has reached 0, and the high byte 0x03 is still there:
768 is returned, not 0. -/
theorem rcTimer_1000_never_high :
    ((Pin.custom 13 0x20 0 0x23 0x25 0x24).rcTimer 1000 (fun _ => 0) ⟨fun _ => 0, 0x80⟩).count = 768 ∧
      ((Pin.custom 13 0x20 0 0x23 0x25 0x24).rcTimer 1000 (fun _ => 0) ⟨fun _ => 0, 0x80⟩).loads
        = 232 :=
  rcTimer_never_high (Pin.custom 13 0x20 0 0x23 0x25 0x24) 1000 (fun _ => 0) ⟨fun _ => 0, 0x80⟩
    (fun _ => (by decide : ¬ High 0x20 0))

/-- C9, evaluated where it fails: `rcTimer(0)` does enter the polling loop.  It loads the input
register at least once on every input, and on a pin whose first reading is not HIGH and whose
second reading is HIGH it makes two loads and returns 255, not 0. -/
theorem rcTimer_0_enters_loop :
    (∀ (p : Pin) (pin : Nat → Nat) (s : Machine), 1 ≤ (p.rcTimer 0 pin s).loads) ∧
      ((Pin.custom 13 0x20 0 0x23 0x25 0x24).rcTimer 0 (fun i => if i = 0 then 0 else 0x20)
        ⟨fun _ => 0, 0x80⟩).count = 255 ∧
      ((Pin.custom 13 0x20 0 0x23 0x25 0x24).rcTimer 0 (fun i => if i = 0 then 0 else 0x20)
        ⟨fun _ => 0, 0x80⟩).loads = 2 := by
  refine ⟨fun p pin s => ?_, ?_⟩
  · rw [rcTimer_loads]
    have := rcLoop_loads_pos p._offset pin _ (0 % 65536 % 256) 0 rfl
    omega
  · exact rcTimer_first_high (Pin.custom 13 0x20 0 0x23 0x25 0x24) 0 1
      (fun i => if i = 0 then 0 else 0x20) ⟨fun _ => 0, 0x80⟩ (by decide) (by decide) (by decide)

/-- C10: for every pin and every 16 bit initial count, if the first load of the input register
after the direction is set to input reads HIGH, `rcTimer(count)` returns `count` unchanged, after
that one load and no decrement. -/
theorem rcTimer_high_at_first_load (p : Pin) (count : Nat) (hc : count < 65536)
    (pin : Nat → Nat) (hh : High p._offset (pin 0)) (s : Machine) :
    (p.rcTimer count pin s).count = count ∧ (p.rcTimer count pin s).loads = 1 := by
  have h := rcTimer_first_high p count 0 pin s (Nat.succ_pos _)
    (fun j hj => absurd hj (Nat.not_lt_zero j)) hh
  refine ⟨?_, h.2⟩
  rw [h.1]
  omega

theorem rcTimer_high_at_first_load_witness :
    High (Pin.custom 13 0x20 0 0x23 0x25 0x24)._offset ((fun _ => 0x20) 0) ∧
      ((Pin.custom 13 0x20 0 0x23 0x25 0x24).rcTimer 1000 (fun _ => 0x20)
        ⟨fun _ => 0, 0x80⟩).count = 1000 ∧
      ((Pin.custom 13 0x20 0 0x23 0x25 0x24).rcTimer 1000 (fun _ => 0x20)
        ⟨fun _ => 0, 0x80⟩).loads = 1 :=
  ⟨by decide, rcTimer_high_at_first_load (Pin.custom 13 0x20 0 0x23 0x25 0x24) 1000 (by decide)
    (fun _ => 0x20) (by decide) ⟨fun _ => 0, 0x80⟩⟩

/-! ## `rcTimer`: order of the returned values, final mode, status register -/

/-- With a counter that fits the low byte, an earlier transition returns no less. -/
theorem rcTimer_mono_of_lt_256 (p : Pin) (count k₁ k₂ : Nat) (pin₁ pin₂ : Nat → Nat)
    (s₁ s₂ : Machine) (hc : count < 256) (h12 : k₁ ≤ k₂) (hk : k₂ < count)
    (hl₁ : ∀ j, j < k₁ → ¬ High p._offset (pin₁ j)) (hh₁ : High p._offset (pin₁ k₁))
    (hl₂ : ∀ j, j < k₂ → ¬ High p._offset (pin₂ j)) (hh₂ : High p._offset (pin₂ k₂)) :
    (p.rcTimer count pin₂ s₂).count ≤ (p.rcTimer count pin₁ s₁).count := by
  rw [(rcTimer_first_high_of_lt_256 p count k₁ pin₁ s₁ hc (by omega) hl₁ hh₁).1,
    (rcTimer_first_high_of_lt_256 p count k₂ pin₂ s₂ hc hk hl₂ hh₂).1]
  omega

/-- C11, evaluated where it fails: `rcTimer(256)` on a pin that reads HIGH at the first load
(`k₁ = 0`) returns 256, and on a pin that reads HIGH only at the second load (`k₂ = 1 < 256`)
returns 511: the slower transition returns the greater value. -/
theorem rcTimer_256_slower_returns_more :
    ((Pin.custom 13 0x20 0 0x23 0x25 0x24).rcTimer 256 (fun _ => 0x20)
        ⟨fun _ => 0, 0x80⟩).count = 256 ∧
      ((Pin.custom 13 0x20 0 0x23 0x25 0x24).rcTimer 256 (fun i => if i = 0 then 0 else 0x20)
        ⟨fun _ => 0, 0x80⟩).count = 511 ∧
      ¬ ((Pin.custom 13 0x20 0 0x23 0x25 0x24).rcTimer 256 (fun i => if i = 0 then 0 else 0x20)
          ⟨fun _ => 0, 0x80⟩).count
        ≤ ((Pin.custom 13 0x20 0 0x23 0x25 0x24).rcTimer 256 (fun _ => 0x20)
          ⟨fun _ => 0, 0x80⟩).count := by
  have h₁ := (rcTimer_first_high (Pin.custom 13 0x20 0 0x23 0x25 0x24) 256 0
    (fun _ => 0x20) ⟨fun _ => 0, 0x80⟩ (by decide) (by decide) (by decide)).1
  have h₂ := (rcTimer_first_high (Pin.custom 13 0x20 0 0x23 0x25 0x24) 256 1
    (fun i => if i = 0 then 0 else 0x20) ⟨fun _ => 0, 0x80⟩ (by decide) (by decide)
    (by decide)).1
  refine ⟨by rw [h₁], by rw [h₂], ?_⟩
  rw [h₁, h₂]
  decide

/-- C12: for every constructed pin with a single-bit offset, every initial count and every
sequence of input readings (so on both exits of the loop, the pin read HIGH or the counter ran
out) and whatever the mode was before the call, the direction bit is set when `rcTimer` returns:
`getMode()` is `OUTPUT`. -/
theorem getMode_rcTimer (p : Pin) (hp : p.Bound) (h1 : SingleBit p._offset) (count : Nat)
    (pin : Nat → Nat) (s : Machine) :
    p.getMode (p.rcTimer count pin s).machine = OUTPUT := by
  have h : p.DDR_ON (p.rcTimer count pin s).machine = p._offset := by
    rw [← DDR_ON_DDR_HIGH p hp (p.DDR_LOW s)]
    exact DDR_ON_congr p (congrFun (rcTimer_mem p count pin s) _)
  simp [Pin.getMode, h, h1.ne_zero]

theorem getMode_rcTimer_witness :
    SingleBit (Pin.custom 13 0x20 0 0x23 0x25 0x24)._offset ∧
      (Pin.custom 13 0x20 0 0x23 0x25 0x24).getMode
          ((Pin.custom 13 0x20 0 0x23 0x25 0x24).rcTimer 1000 (fun _ => 0)
            ⟨fun _ => 0, 0x80⟩).machine = OUTPUT ∧
      (Pin.custom 13 0x20 0 0x23 0x25 0x24).getMode
          ((Pin.custom 13 0x20 0 0x23 0x25 0x24).rcTimer 1000 (fun _ => 0x20)
            ⟨fun _ => 0, 0x80⟩).machine = OUTPUT :=
  ⟨by decide, getMode_rcTimer _ (custom_bound _ _ _ _ _ _) (by decide) 1000 (fun _ => 0) _,
    getMode_rcTimer _ (custom_bound _ _ _ _ _ _) (by decide) 1000 (fun _ => 0x20) _⟩

/-- C13: for every mutating operation (the assignment, `set`, `setMode`, `setState`, `setInput`,
`setOutput`, `setPullupOn/Off`, `setInputPullupOn/Off`, `setHigh`, `setLow`, `setOutputHigh/Low`,
`toggleMode`, `toggleState`, `rcTimer`), every pin and every machine state, `SREG` after the call
is `SREG` before the call: the saved status is written back, so interrupts that were disabled
stay disabled. -/
theorem sreg_restored (p : Pin) (op : Op) (s : Machine) : (op.run p s).sreg = s.sreg := by
  cases op <;> rfl

/-! ## Toggling twice -/

/-- Masking with a byte sees only the low 8 bits. -/
theorem mod_256_and (x m : Nat) (hm : m < 256) : x % 256 &&& m = x &&& m := by
  apply Nat.eq_of_testBit_eq
  intro j
  have h256 : (256 : Nat) = 2 ^ 8 := by norm_num
  rw [h256]
  simp only [Nat.testBit_and, Nat.testBit_mod_two_pow]
  by_cases hj : j < 8
  · simp [hj]
  · have := testBit_high_of_byte hm (by omega : 8 ≤ j)
    simp [hj, this]

/-- `x ^ m` stored in a byte, then `^ m` again and stored: the low 8 bits of `x`. -/
theorem xor_store_xor_store (x m : Nat) : ((x ^^^ m) % 256 ^^^ m) % 256 = x % 256 := by
  apply Nat.eq_of_testBit_eq
  intro j
  have h256 : (256 : Nat) = 2 ^ 8 := by norm_num
  rw [h256]
  simp only [Nat.testBit_xor, Nat.testBit_mod_two_pow]
  by_cases hj : j < 8
  · cases x.testBit j <;> cases m.testBit j <;> simp [hj]
  · simp [hj]

theorem toggleState_twice_mem (p : Pin) (s : Machine) :
    (p.toggleState (p.toggleState s)).mem p._PORT = s.mem p._PORT % 256 := by
  simp only [Pin.toggleState, Pin.PORT_TOGGLE, setSREG_mem, store_mem, cli_mem, if_true]
  exact xor_store_xor_store _ _

theorem toggleMode_twice_mem (p : Pin) (s : Machine) :
    (p.toggleMode (p.toggleMode s)).mem p._DDR = s.mem p._DDR % 256 := by
  simp only [Pin.toggleMode, Pin.DDR_TOGGLE, setSREG_mem, store_mem, cli_mem, if_true]
  exact xor_store_xor_store _ _

/-- C14: for every constructed pin and any register contents, after two consecutive calls of
`toggleState()` `getState()` returns what it returned before them, and an output register that
held a byte holds that byte again. -/
theorem toggleState_toggleState (p : Pin) (hp : p.Bound) (s : Machine) :
    p.getState (p.toggleState (p.toggleState s)) = p.getState s ∧
      (s.mem p._PORT < 256 →
        (p.toggleState (p.toggleState s)).mem p._PORT = s.mem p._PORT) := by
  constructor
  · simp only [Pin.getState, Pin.PORT_ON, toggleState_twice_mem, mod_256_and _ _ hp.1]
  · intro hb
    rw [toggleState_twice_mem, Nat.mod_eq_of_lt hb]

theorem toggleState_toggleState_witness :
    (Pin.custom 13 0x20 0 0x23 0x25 0x24).getState
        ((Pin.custom 13 0x20 0 0x23 0x25 0x24).toggleState
          ((Pin.custom 13 0x20 0 0x23 0x25 0x24).toggleState ⟨fun _ => 0xA1, 0x80⟩))
      = (Pin.custom 13 0x20 0 0x23 0x25 0x24).getState ⟨fun _ => 0xA1, 0x80⟩ ∧
      ((Pin.custom 13 0x20 0 0x23 0x25 0x24).toggleState
          ((Pin.custom 13 0x20 0 0x23 0x25 0x24).toggleState ⟨fun _ => 0xA1, 0x80⟩)).mem 0x25
        = 0xA1 :=
  have h := toggleState_toggleState (Pin.custom 13 0x20 0 0x23 0x25 0x24)
    (custom_bound _ _ _ _ _ _) ⟨fun _ => 0xA1, 0x80⟩
  ⟨h.1, h.2 (by decide)⟩

/-- C15: for every constructed pin and any register contents, after two consecutive calls of
`toggleMode()` `getMode()` returns what it returned before them, and a direction register that
held a byte holds that byte again. -/
theorem toggleMode_toggleMode (p : Pin) (hp : p.Bound) (s : Machine) :
    p.getMode (p.toggleMode (p.toggleMode s)) = p.getMode s ∧
      (s.mem p._DDR < 256 →
        (p.toggleMode (p.toggleMode s)).mem p._DDR = s.mem p._DDR) := by
  constructor
  · simp only [Pin.getMode, Pin.DDR_ON, toggleMode_twice_mem, mod_256_and _ _ hp.1]
  · intro hb
    rw [toggleMode_twice_mem, Nat.mod_eq_of_lt hb]

theorem toggleMode_toggleMode_witness :
    (Pin.custom 13 0x20 0 0x23 0x25 0x24).getMode
        ((Pin.custom 13 0x20 0 0x23 0x25 0x24).toggleMode
          ((Pin.custom 13 0x20 0 0x23 0x25 0x24).toggleMode ⟨fun _ => 0xA1, 0x80⟩))
      = (Pin.custom 13 0x20 0 0x23 0x25 0x24).getMode ⟨fun _ => 0xA1, 0x80⟩ ∧
      ((Pin.custom 13 0x20 0 0x23 0x25 0x24).toggleMode
          ((Pin.custom 13 0x20 0 0x23 0x25 0x24).toggleMode ⟨fun _ => 0xA1, 0x80⟩)).mem 0x24
        = 0xA1 :=
  have h := toggleMode_toggleMode (Pin.custom 13 0x20 0 0x23 0x25 0x24)
    (custom_bound _ _ _ _ _ _) ⟨fun _ => 0xA1, 0x80⟩
  ⟨h.1, h.2 (by decide)⟩

/-! ## The masks of a constructed pin -/

theorem and_bitNot8 (x : Nat) (hx : x < 256) : x &&& bitNot8 x = 0 := by
  apply Nat.eq_of_testBit_eq
  intro j
  simp only [Nat.testBit_and, testBit_bitNot8 x j hx, Nat.zero_testBit]
  cases x.testBit j <;> simp

theorem or_bitNot8 (x : Nat) (hx : x < 256) : x ||| bitNot8 x = 0xFF := by
  apply Nat.eq_of_testBit_eq
  intro j
  have h255 : (0xFF : Nat) = 2 ^ 8 - 1 := by norm_num
  rw [h255, Nat.testBit_two_pow_sub_one]
  simp only [Nat.testBit_or, testBit_bitNot8 x j hx]
  by_cases hj : j < 8
  · cases x.testBit j <;> simp [hj]
  · have := testBit_high_of_byte hx (by omega : 8 ≤ j)
    simp [hj, this]

/-- The getters of a pin that satisfies `Pin.Bound`. -/
theorem Pin.Bound.masks {p : Pin} (hp : p.Bound) :
    p.getOffset &&& p.getInverseOffset = 0 ∧ p.getOffset ||| p.getInverseOffset = 0xFF := by
  unfold Pin.getOffset Pin.getInverseOffset
  rw [hp.2]
  exact ⟨and_bitNot8 _ hp.1, or_bitNot8 _ hp.1⟩

/-- A sequence of calls gives the object back as it was. -/
theorem calls_fst (ops : List Op) (ps : Pin × Machine) : (Op.calls ops ps).1 = ps.1 := by
  induction ops generalizing ps with
  | nil => rfl
  | cons op ops ih => exact ih (op.call ps)

/-- C16: for a pin built by any of the three constructors, from any supplied or resolved offset,
`getOffset() & getInverseOffset()` is 0 and `getOffset() | getInverseOffset()` is 0xFF; and after
any sequence of calls of the mutating member functions, from any machine state, `getOffset()` and
`getInverseOffset()` return what they returned before. -/
theorem offset_inverseOffset_complement :
    (∀ number offset timer PIN PORT DDR : Nat,
        (Pin.custom number offset timer PIN PORT DDR).getOffset
            &&& (Pin.custom number offset timer PIN PORT DDR).getInverseOffset = 0 ∧
          (Pin.custom number offset timer PIN PORT DDR).getOffset
            ||| (Pin.custom number offset timer PIN PORT DDR).getInverseOffset = 0xFF) ∧
      (∀ (b : Board) (number : Nat),
        (Pin.ofNumber b number).getOffset &&& (Pin.ofNumber b number).getInverseOffset = 0 ∧
          (Pin.ofNumber b number).getOffset ||| (Pin.ofNumber b number).getInverseOffset
            = 0xFF) ∧
      (∀ b : Board,
        (Pin.default b).getOffset &&& (Pin.default b).getInverseOffset = 0 ∧
          (Pin.default b).getOffset ||| (Pin.default b).getInverseOffset = 0xFF) ∧
      (∀ (p : Pin) (ops : List Op) (s : Machine),
        (Op.calls ops (p, s)).1.getOffset = p.getOffset ∧
          (Op.calls ops (p, s)).1.getInverseOffset = p.getInverseOffset) := by
  refine ⟨fun number offset timer PIN PORT DDR => (custom_bound _ _ _ _ _ _).masks,
    fun b number => (ofNumber_bound b number).masks, fun b => (default_bound b).masks, ?_⟩
  intro p ops s
  rw [calls_fst]
  exact ⟨rfl, rfl⟩

/-- C17, where it fails: the custom board constructor takes the offset the caller supplies, and
0b00000011 has two bits set (0 has none). -/
theorem custom_offset_two_bits :
    (Pin.custom 13 0b00000011 0 0x23 0x25 0x24).getOffset = 0b00000011 ∧
      ¬ SingleBit (Pin.custom 13 0b00000011 0 0x23 0x25 0x24).getOffset ∧
      ¬ SingleBit (Pin.custom 13 0 0 0x23 0x25 0x24).getOffset := by
  refine ⟨rfl, ?_, ?_⟩ <;> decide

/-- C17 as amended: `getOffset()` of a pin built by the custom board constructor is the supplied
offset as an 8 bit value, and of a pin built by the other two constructors the mask the pin map
resolves, as an 8 bit value; so the offset is a single-bit mask when the supplied or resolved
mask is one. -/
theorem offset_singleBit_of_supplied :
    (∀ number offset timer PIN PORT DDR : Nat,
        (Pin.custom number offset timer PIN PORT DDR).getOffset = offset % 256 ∧
          (SingleBit offset → (Pin.custom number offset timer PIN PORT DDR).getOffset = offset ∧
            SingleBit (Pin.custom number offset timer PIN PORT DDR).getOffset)) ∧
      (∀ (b : Board) (number : Nat),
        (Pin.ofNumber b number).getOffset = b.digitalPinToBitMask (number % 256) % 256 ∧
          (SingleBit (b.digitalPinToBitMask (number % 256)) →
            SingleBit (Pin.ofNumber b number).getOffset)) ∧
      (∀ b : Board,
        (Pin.default b).getOffset = b.digitalPinToBitMask 0 % 256 ∧
          (SingleBit (b.digitalPinToBitMask 0) → SingleBit (Pin.default b).getOffset)) := by
  have key : ∀ x : Nat, SingleBit x → x % 256 = x := fun x h => Nat.mod_eq_of_lt h.lt
  refine ⟨fun number offset timer PIN PORT DDR => ⟨rfl, fun h => ?_⟩,
    fun b number => ⟨rfl, fun h => ?_⟩, fun b => ⟨rfl, fun h => ?_⟩⟩
  · have e : (Pin.custom number offset timer PIN PORT DDR).getOffset = offset := key _ h
    exact ⟨e, by rw [e]; exact h⟩
  · have e : (Pin.ofNumber b number).getOffset = b.digitalPinToBitMask (number % 256) :=
      key _ h
    rw [e]
    exact h
  · have e : (Pin.default b).getOffset = b.digitalPinToBitMask 0 := key _ h
    rw [e]
    exact h

theorem offset_singleBit_of_supplied_witness :
    SingleBit 0b00000100 ∧ (Pin.custom 13 0b00000100 0 0x23 0x25 0x24).getOffset = 0b00000100 ∧
      SingleBit (Pin.custom 13 0b00000100 0 0x23 0x25 0x24).getOffset :=
  ⟨by decide, (offset_singleBit_of_supplied.1 13 0b00000100 0 0x23 0x25 0x24).2 (by decide)⟩

/-! ## Stores happen with interrupts disabled -/

/-- After `cli` interrupts are disabled. -/
theorem interruptsEnabled_cli (s : Machine) : interruptsEnabled s.cli = false := by
  simp only [interruptsEnabled, Machine.cli, Nat.testBit_and]
  have : Nat.testBit 0x7F 7 = false := by decide
  rw [this, Bool.and_false]

/-- A store leaves `SREG` alone. -/
theorem interruptsEnabled_store (s : Machine) (a v : Nat) :
    interruptsEnabled (s.store a v) = interruptsEnabled s := rfl

/-- The passes of the polling loop store nothing and leave the thread as it was. -/
theorem WritesMasked_loads (p : Pin) (n : Nat) (rest : List Instr) (t : Thread) :
    WritesMasked p (List.replicate n Instr.loadPIN ++ rest) t ↔ WritesMasked p rest t := by
  induction n with
  | zero => rfl
  | succ n ih =>
    rw [List.replicate_succ, List.cons_append]
    show ((Instr.loadPIN.writes = true → _) ∧ _) ↔ _
    constructor
    · intro h
      exact ih.mp h.2
    · intro h
      exact ⟨fun hw => absurd hw (by decide), ih.mpr h⟩

theorem exec_loads (p : Pin) (n : Nat) (rest : List Instr) (t : Thread) :
    exec p (List.replicate n Instr.loadPIN ++ rest) t = exec p rest t := by
  induction n with
  | zero => rfl
  | succ n ih =>
    rw [List.replicate_succ, List.cons_append]
    exact ih

/-- A store made right after `saveSREG; cli` is made with interrupts disabled, and so is a second
store right after it. -/
theorem WritesMasked_one (p : Pin) (w : Instr) (s : Machine) (old : Nat) :
    WritesMasked p [.saveSREG, .cli, w, .restoreSREG] ⟨s, old⟩ := by
  refine ⟨fun h => absurd h (by decide), fun h => absurd h (by decide), fun _ => ?_,
    fun h => absurd h (by decide), trivial⟩
  exact interruptsEnabled_cli s

theorem WritesMasked_two (p : Pin) (w₁ w₂ : Instr) (hw : w₁.writes = true) (s : Machine)
    (old : Nat) :
    WritesMasked p [.saveSREG, .cli, w₁, w₂, .restoreSREG] ⟨s, old⟩ := by
  refine ⟨fun h => absurd h (by decide), fun h => absurd h (by decide), fun _ => ?_, fun _ => ?_,
    fun h => absurd h (by decide), trivial⟩
  · exact interruptsEnabled_cli s
  · cases w₁ <;> first | exact interruptsEnabled_cli s | exact absurd hw (by decide)

/-- The statements of an operation, run one by one, end in the state the member function gives. -/
theorem exec_code (p : Pin) (op : Op) (s : Machine) (old : Nat) :
    (exec p (op.code p) ⟨s, old⟩).machine = op.run p s := by
  cases op with
  | assign state => by_cases h : state % 256 = LOW <;> simp [Op.code, Op.run, Pin.assign, h] <;> rfl
  | set mode state =>
    by_cases hm : mode % 256 = INPUT <;> by_cases h : state % 256 = LOW <;>
      simp [Op.code, Op.run, Pin.set, hm, h] <;> rfl
  | setMode mode => by_cases hm : mode % 256 = INPUT <;> simp [Op.code, Op.run, Pin.setMode, hm] <;> rfl
  | setState state =>
    by_cases h : state % 256 = LOW <;> simp [Op.code, Op.run, Pin.setState, h] <;> rfl
  | rcTimer count pin =>
    show (exec p ([.saveSREG, .cli, .DDR_LOW]
      ++ List.replicate (rcLoop p._offset pin (count % 65536 % 256) 0).2 .loadPIN
      ++ [.DDR_HIGH, .restoreSREG]) ⟨s, old⟩).machine = _
    rw [List.append_assoc]
    show (exec p (List.replicate _ Instr.loadPIN ++ [.DDR_HIGH, .restoreSREG]) _).machine = _
    rw [exec_loads]
    rfl
  | _ => rfl

/-- C18: for every pin, every mutating operation (the compound setters and `rcTimer` among them)
and every machine state, interrupts enabled or not: read as a sequence of statements over the
registers and `SREG`, the operation makes every store to the direction or output register in a
state where the global interrupt enable flag is cleared; the sequence ends in the state the
member function gives; and a compound setter is `saveSREG; cli;` a store to the direction
register, a store to the output register, `restoreSREG`: both stores in one disabled region. -/
theorem writes_with_interrupts_disabled (p : Pin) (op : Op) (s : Machine) (old : Nat) :
    WritesMasked p (op.code p) ⟨s, old⟩ ∧
      (exec p (op.code p) ⟨s, old⟩).machine = op.run p s ∧
      (op.compound = true →
        ∃ w₁ w₂, (w₁ = Instr.DDR_LOW ∨ w₁ = Instr.DDR_HIGH) ∧
          (w₂ = Instr.PORT_LOW ∨ w₂ = Instr.PORT_HIGH) ∧
          op.code p = [.saveSREG, .cli, w₁, w₂, .restoreSREG]) := by
  refine ⟨?_, exec_code p op s old, ?_⟩
  · cases op with
    | assign state => exact WritesMasked_one p _ s old
    | set mode state =>
      refine WritesMasked_two p _ _ ?_ s old
      split <;> rfl
    | setMode mode => exact WritesMasked_one p _ s old
    | setState state => exact WritesMasked_one p _ s old
    | setInput => exact WritesMasked_one p _ s old
    | setOutput => exact WritesMasked_one p _ s old
    | setPullupOn => exact WritesMasked_one p _ s old
    | setPullupOff => exact WritesMasked_one p _ s old
    | setInputPullupOn => exact WritesMasked_two p .DDR_LOW .PORT_HIGH rfl s old
    | setInputPullupOff => exact WritesMasked_two p .DDR_LOW .PORT_LOW rfl s old
    | setHigh => exact WritesMasked_one p _ s old
    | setLow => exact WritesMasked_one p _ s old
    | setOutputHigh => exact WritesMasked_two p .DDR_HIGH .PORT_HIGH rfl s old
    | setOutputLow => exact WritesMasked_two p .DDR_HIGH .PORT_LOW rfl s old
    | toggleMode => exact WritesMasked_one p _ s old
    | toggleState => exact WritesMasked_one p _ s old
    | rcTimer count pin =>
      show WritesMasked p ([.saveSREG, .cli, .DDR_LOW]
        ++ List.replicate (rcLoop p._offset pin (count % 65536 % 256) 0).2 .loadPIN
        ++ [.DDR_HIGH, .restoreSREG]) ⟨s, old⟩
      rw [List.append_assoc]
      refine ⟨fun h => absurd h (by decide), fun h => absurd h (by decide),
        fun _ => interruptsEnabled_cli s, ?_⟩
      show WritesMasked p (List.replicate _ Instr.loadPIN ++ [.DDR_HIGH, .restoreSREG]) _
      rw [WritesMasked_loads]
      exact ⟨fun _ => interruptsEnabled_cli s, fun h => absurd h (by decide), trivial⟩
  · intro hc
    cases op with
    | set mode state =>
      exact ⟨_, _, ite_eq_or_eq _ _ _, ite_eq_or_eq _ _ _, rfl⟩
    | setInputPullupOn => exact ⟨_, _, Or.inl rfl, Or.inr rfl, rfl⟩
    | setInputPullupOff => exact ⟨_, _, Or.inl rfl, Or.inl rfl, rfl⟩
    | setOutputHigh => exact ⟨_, _, Or.inr rfl, Or.inr rfl, rfl⟩
    | setOutputLow => exact ⟨_, _, Or.inr rfl, Or.inl rfl, rfl⟩
    | _ => exact absurd hc Bool.false_ne_true

/-! ## `rcTimer` returns, within 256 passes of its loop -/

/-- With room for as many passes as the low byte needs to reach 0, the bounded loop reaches the
label `end`, with the result of `rcLoop`. -/
theorem rcLoopFuel_eq (offset : Nat) (pin : Nat → Nat) :
    ∀ (fuel lo i : Nat), lo < 256 → (lo + 255) % 256 + 1 ≤ fuel →
      rcLoopFuel offset pin fuel lo i = some (rcLoop offset pin lo i) := by
  intro fuel
  induction fuel with
  | zero =>
    intro lo i _ hf
    omega
  | succ fuel ih =>
    intro lo i hlo hf
    by_cases hh : High offset (pin i)
    · have hh' : pin i % 256 &&& offset ≠ 0 := hh
      rw [rcLoop_high lo hh]
      simp only [rcLoopFuel, if_pos hh']
    · have hh' : ¬ pin i % 256 &&& offset ≠ 0 := hh
      by_cases hne : (lo + 255) % 256 = 0
      · rw [rcLoop_low_exit hh hne]
        simp only [rcLoopFuel, if_neg hh', hne, ne_eq, not_true_eq_false, if_false]
      · rw [rcLoop_low_loop hh hne]
        simp only [rcLoopFuel, if_neg hh', ne_eq, hne, not_false_eq_true, if_true]
        exact ih _ (i + 1) (Nat.mod_lt _ (by decide)) (by omega)

/-- The loop makes at most as many loads as the low byte needs decrements to reach 0. -/
theorem rcLoop_loads_le (offset : Nat) (pin : Nat → Nat) :
    ∀ (n lo i : Nat), lo < 256 → (lo + 255) % 256 = n →
      (rcLoop offset pin lo i).2 ≤ i + n + 1 := by
  intro n
  induction n using Nat.strong_induction_on with
  | _ n ih =>
    intro lo i hlt hn
    by_cases hh : High offset (pin i)
    · rw [rcLoop_high lo hh]
      simp only
      omega
    · by_cases hlo : (lo + 255) % 256 = 0
      · rw [rcLoop_low_exit hh hlo]
        simp only
        omega
      · rw [rcLoop_low_loop hh hlo]
        have := ih (((lo + 255) % 256 + 255) % 256) (by omega) ((lo + 255) % 256) (i + 1)
          (Nat.mod_lt _ (by decide)) rfl
        omega

/-- C19: for every pin, every initial count and every sequence of input readings (one in which
the pin never reads HIGH among them), `rcTimer` returns: run with room for 256 passes of its
loop it gives the result of `rcTimer`.  The loop makes at least one and at most 256 loads of the
input register, and for every count of 1 or more at most `count` loads. -/
theorem rcTimer_terminates (p : Pin) (count : Nat) (pin : Nat → Nat) (s : Machine) :
    p.rcTimerFuel 256 count pin s = some (p.rcTimer count pin s) ∧
      1 ≤ (p.rcTimer count pin s).loads ∧
      (p.rcTimer count pin s).loads ≤ 256 ∧
      (1 ≤ count → (p.rcTimer count pin s).loads ≤ count) := by
  have hlo : count % 65536 % 256 < 256 := Nat.mod_lt _ (by decide)
  have hf := rcLoopFuel_eq p._offset pin 256 (count % 65536 % 256) 0 hlo (by omega)
  have hle := rcLoop_loads_le p._offset pin _ (count % 65536 % 256) 0 hlo rfl
  have hpos := rcLoop_loads_pos p._offset pin _ (count % 65536 % 256) 0 rfl
  refine ⟨?_, ?_, ?_, ?_⟩
  · simp only [Pin.rcTimerFuel, hf]
    rfl
  · rw [rcTimer_loads]
    omega
  · rw [rcTimer_loads]
    omega
  · intro hc
    rw [rcTimer_loads]
    omega

theorem rcTimer_terminates_witness :
    ((Pin.custom 13 0x20 0 0x23 0x25 0x24).rcTimerFuel 256 3 (fun _ => 0)
        ⟨fun _ => 0, 0x80⟩).isSome = true ∧
      ((Pin.custom 13 0x20 0 0x23 0x25 0x24).rcTimer 3 (fun _ => 0) ⟨fun _ => 0, 0x80⟩).loads
        ≤ 3 := by
  have h := rcTimer_terminates (Pin.custom 13 0x20 0 0x23 0x25 0x24) 3 (fun _ => 0)
    ⟨fun _ => 0, 0x80⟩
  exact ⟨by rw [h.1]; rfl, h.2.2.2 (by decide)⟩

/-! ## The setters test their argument against zero -/

/-- C20: the setters decide only on whether their argument is zero.  For every constructed pin
with a single-bit offset whose direction and output registers are distinct, any register
contents, and all 8 bit values `mode` and `state`: when `mode` is not `INPUT` (0), `INPUT_PULLUP`
(2) among them, `getMode()` is `OUTPUT` after `setMode(mode)` and after `set(mode, state)`; when
`state` is not `LOW` (0), `getState()` is `HIGH` after `setState(state)`, after the assignment
`pin = state` and after `set(mode, state)`. -/
theorem setters_test_zero (p : Pin) (hp : p.Bound) (h1 : SingleBit p._offset)
    (hd : p._DDR ≠ p._PORT) (mode state : Nat) (hmode : mode < 256) (hstate : state < 256)
    (s : Machine) :
    (mode ≠ INPUT →
        p.getMode (p.setMode mode s) = OUTPUT ∧ p.getMode (p.set mode state s) = OUTPUT) ∧
      (state ≠ LOW →
        p.getState (p.setState state s) = HIGH ∧ p.getState (p.assign state s) = HIGH ∧
          p.getState (p.set mode state s) = HIGH) := by
  have out : ∀ t : Machine, p.DDR_ON t = p._offset → p.getMode t = OUTPUT := fun t h => by
    simp [Pin.getMode, h, h1.ne_zero]
  have high : ∀ t : Machine, p.PORT_ON t = p._offset → p.getState t = HIGH := fun t h => by
    simp [Pin.getState, h, h1.ne_zero]
  have em : mode % 256 = mode := Nat.mod_eq_of_lt hmode
  have es : state % 256 = state := Nat.mod_eq_of_lt hstate
  constructor
  · intro hm
    refine ⟨out _ ?_, out _ ?_⟩
    · rw [← DDR_ON_DDR_HIGH p hp s.cli]
      apply DDR_ON_congr
      simp only [Pin.setMode, em, if_neg hm, setSREG_mem]
    · by_cases hs : state = LOW
      · rw [← DDR_ON_DDR_HIGH p hp s.cli, ← DDR_ON_PORT_LOW p hd (p.DDR_HIGH s.cli)]
        apply DDR_ON_congr
        simp only [Pin.set, em, es, if_neg hm, if_pos hs, setSREG_mem]
      · rw [← DDR_ON_DDR_HIGH p hp s.cli, ← DDR_ON_PORT_HIGH p hd (p.DDR_HIGH s.cli)]
        apply DDR_ON_congr
        simp only [Pin.set, em, es, if_neg hm, if_neg hs, setSREG_mem]
  · intro hs
    refine ⟨high _ ?_, high _ ?_, high _ ?_⟩
    · rw [← PORT_ON_PORT_HIGH p hp s.cli]
      apply PORT_ON_congr
      simp only [Pin.setState, es, if_neg hs, setSREG_mem]
    · rw [← PORT_ON_PORT_HIGH p hp s.cli]
      apply PORT_ON_congr
      simp only [Pin.assign, es, if_neg hs, setSREG_mem]
    · by_cases hm : mode = INPUT
      · rw [← PORT_ON_PORT_HIGH p hp (p.DDR_LOW s.cli)]
        apply PORT_ON_congr
        simp only [Pin.set, em, es, if_pos hm, if_neg hs, setSREG_mem]
      · rw [← PORT_ON_PORT_HIGH p hp (p.DDR_HIGH s.cli)]
        apply PORT_ON_congr
        simp only [Pin.set, em, es, if_neg hm, if_neg hs, setSREG_mem]

theorem setters_test_zero_witness :
    (SingleBit (Pin.custom 13 0x20 0 0x23 0x25 0x24)._offset ∧
        (Pin.custom 13 0x20 0 0x23 0x25 0x24)._DDR ≠ (Pin.custom 13 0x20 0 0x23 0x25 0x24)._PORT ∧
        INPUT_PULLUP < 256 ∧ INPUT_PULLUP ≠ INPUT ∧ 0xFF ≠ LOW) ∧
      ((Pin.custom 13 0x20 0 0x23 0x25 0x24).getMode
            ((Pin.custom 13 0x20 0 0x23 0x25 0x24).setMode INPUT_PULLUP ⟨fun _ => 0, 0x80⟩)
          = OUTPUT ∧
        (Pin.custom 13 0x20 0 0x23 0x25 0x24).getMode
            ((Pin.custom 13 0x20 0 0x23 0x25 0x24).set INPUT_PULLUP 0xFF ⟨fun _ => 0, 0x80⟩)
          = OUTPUT) ∧
      (Pin.custom 13 0x20 0 0x23 0x25 0x24).getState
          ((Pin.custom 13 0x20 0 0x23 0x25 0x24).setState 0xFF ⟨fun _ => 0, 0x80⟩) = HIGH :=
  have h := setters_test_zero (Pin.custom 13 0x20 0 0x23 0x25 0x24) (custom_bound _ _ _ _ _ _)
    (by decide) (by decide) INPUT_PULLUP 0xFF (by decide) (by decide) ⟨fun _ => 0, 0x80⟩
  ⟨by decide, h.1 (by decide), (h.2 (by decide)).1⟩

/-- An argument of 256 is narrowed to 0 by the `uint8_t` parameter: `setMode(256)` takes the
`INPUT` branch and `setState(256)` the `LOW` branch. -/
theorem setters_narrow_argument :
    (Pin.custom 13 0x20 0 0x23 0x25 0x24).getMode
        ((Pin.custom 13 0x20 0 0x23 0x25 0x24).setMode 256 ⟨fun _ => 0xFF, 0x80⟩) = INPUT ∧
      (Pin.custom 13 0x20 0 0x23 0x25 0x24).getState
        ((Pin.custom 13 0x20 0 0x23 0x25 0x24).setState 256 ⟨fun _ => 0xFF, 0x80⟩) = LOW := by
  constructor <;> decide

end PinLib
